import Mathlib

/-!
Verification development for the rpi-imager-tui repository.

The Rust sources are shallowly embedded: pure functions become Lean
functions, stateful/IO code is modelled by explicit environments that
supply the outcome of every external interaction (HTTP stream chunks,
device I/O success, timer ticks, mount results), and fallible code
returns `Option`/`Except`.  Machine integers are modelled as `Nat`
(no byte value is ever large enough for 64-bit overflow to matter),
`f64` progress percentages as `ℚ`, and byte buffers as `List Nat`.
SHA-256 itself is kept abstract: every definition that hashes is
parameterised by a digest function `sha : List Nat → List Nat`, since
the program only ever compares digests for equality.
-/

/-- byteChunk models the 4 MiB transfer buffer size used by `writer.rs`
(`vec![0u8; 4 * 1024 * 1024]`). -/
def bufSize : Nat := 4 * 1024 * 1024

/-- hexDigitChar maps a value in 0..15 to its lowercase hex digit, as
produced by the `hex::encode` crate used in `writer.rs`. -/
def hexDigitChar (n : Nat) : Char :=
  if n < 10 then Char.ofNat (48 + n) else Char.ofNat (87 + n)

/-- hexEncode models `hex::encode`: each byte becomes two lowercase hex
digits. -/
def hexEncode (bs : List Nat) : String :=
  String.mk (bs.flatMap (fun b => [hexDigitChar (b / 16 % 16), hexDigitChar (b % 16)]))

/-- asciiLowerChar models `char` lowercasing on the ASCII range, which is
all that `str::to_lowercase` can encounter on hex digest strings. -/
def asciiLowerChar (c : Char) : Char :=
  if 'A' ≤ c ∧ c ≤ 'Z' then Char.ofNat (c.toNat + 32) else c

/-- asciiLower models `str::to_lowercase` (restricted to ASCII, which is
faithful for the hex strings it is applied to in `writer.rs`). -/
def asciiLower (s : String) : String :=
  String.mk (s.data.map asciiLowerChar)

/-- escChar is the per-character effect of `shell_escape` in
`customization.rs`: `s.replace("\"", "\\\"").replace("$", "\\$")`.
Both `replace` calls have single-character patterns and the first one
introduces no `$`, so their composition acts character-wise. -/
def escChar (c : Char) : List Char :=
  if c = '"' then ['\\', '"'] else if c = '$' then ['\\', '$'] else [c]

/-- escChars applies `escChar` across a character list. -/
def escChars : List Char → List Char
  | [] => []
  | c :: rest => escChar c ++ escChars rest

/-- shell_escape models the `shell_escape` function of `customization.rs`. -/
def shell_escape (s : String) : String :=
  String.mk (escChars s.data)

/-- unescChars is the parse-back direction for `shell_escape`: an escaped
`\"` or `\$` pair is decoded back to the bare character, anything else is
kept. -/
def unescChars : List Char → List Char
  | [] => []
  | [c] => [c]
  | c :: d :: rest =>
    if c = '\\' ∧ (d = '"' ∨ d = '$') then d :: unescChars rest
    else c :: unescChars (d :: rest)

/-- shell_unescape parses an occurrence of a `shell_escape`d value back to
the original string. -/
def shell_unescape (s : String) : String :=
  String.mk (unescChars s.data)

/-- regex_escape models `regex_escape` in `customization.rs`:
`s.replace(".", "\\.")`. -/
def regex_escape (s : String) : String :=
  String.mk (s.data.flatMap (fun c => if c = '.' then ['\\', '.'] else [c]))

/-- hash_password models `hash_password` in `customization.rs`, which calls
`pwhash::sha512_crypt::hash` — a randomized salted crypt hash.  The hidden
randomness is made explicit as the `salt` argument, and the SHA-512-crypt
digest itself is abstracted as a hex rendering of the password bytes in a
`$6$salt$digest`-shaped string; the development only relies on the output
depending on the salt. -/
def hash_password (salt : String) (password : String) : String :=
  "$6$" ++ salt ++ "$" ++ hexEncode (password.data.map Char.toNat)

/-- CustomizationOptions mirrors the `CustomizationOptions` struct of
`customization.rs` (the two passthrough flags `telemetry` and
`eject_finished` included). -/
structure CustomizationOptions where
  hostname : String
  timezone : String
  keyboard_layout : String
  user_name : String
  password : Option String
  ssh_enabled : Bool
  ssh_password_auth : Bool
  ssh_public_keys : String
  wifi_ssid : String
  wifi_password : String
  wifi_country : String
  wifi_hidden : Bool
  locale : String
  telemetry : Bool
  eject_finished : Bool
deriving DecidableEq

/-- CustomizationOptions.default mirrors the `Default` impl in
`customization.rs`. -/
def CustomizationOptions.default : CustomizationOptions where
  hostname := "raspberrypi"
  timezone := "Europe/London"
  keyboard_layout := "gb"
  user_name := "pi"
  password := none
  ssh_enabled := false
  ssh_password_auth := true
  ssh_public_keys := ""
  wifi_ssid := ""
  wifi_password := ""
  wifi_country := "GB"
  wifi_hidden := false
  locale := "en_GB.UTF-8"
  telemetry := true
  eject_finished := true

/-- needs_customization mirrors `CustomizationOptions::needs_customization`. -/
def CustomizationOptions.needs_customization (o : CustomizationOptions) : Bool :=
  (o.hostname != "raspberrypi")
    || o.ssh_enabled
    || (o.wifi_ssid != "")
    || (o.user_name != "pi")
    || o.password.isSome
    || (o.timezone != "Europe/London")
    || (o.keyboard_layout != "gb")
    || (o.locale != "en_GB.UTF-8")

/-- generate_firstrun_script mirrors `CustomizationOptions::generate_firstrun_script`
push_str by push_str.  The `salt` argument is the randomness consumed by
`hash_password` (see there); the emitted text is otherwise a literal
transcription of the Rust format strings (Rust's backslash-newline string
continuations eat the following indentation, which is reflected here).
The wall-clock content of the script does not depend on anything besides
the settings and the salt. -/
def CustomizationOptions.generate_firstrun_script
    (o : CustomizationOptions) (salt : String) : String :=
  let script := "#!/bin/bash\n"
  let script := script ++ "set +e\n"
  -- 1. Hostname
  let script := script ++
    (if o.hostname ≠ "" then
      "CURRENT_HOSTNAME=$(cat /etc/hostname | tr -d \" \\t\\n\\r\")\n" ++
      "if [ -f /usr/lib/raspberrypi-sys-mods/imager_custom ]; then\n" ++
      "/usr/lib/raspberrypi-sys-mods/imager_custom set_hostname " ++ shell_escape o.hostname ++ "\n" ++
      "else\n" ++
      "echo " ++ shell_escape o.hostname ++ " > /etc/hostname\n" ++
      "sed -i \"s/127.0.1.1.*$CURRENT_HOSTNAME/127.0.1.1\\t" ++ o.hostname ++ "/g\" /etc/hosts\n" ++
      "fi\n"
    else "")
  -- Determine first user (uid 1000) and home
  let script := script ++ "FIRSTUSER=$(getent passwd 1000 | cut -d: -f1)\n"
  let script := script ++ "FIRSTUSERHOME=$(getent passwd 1000 | cut -d: -f6)\n"
  -- 2. SSH
  let script := script ++
    (if o.ssh_enabled then
      (if o.ssh_public_keys ≠ "" then
        "if [ -f /usr/lib/raspberrypi-sys-mods/imager_custom ]; then\n" ++
        "   /usr/lib/raspberrypi-sys-mods/imager_custom enable_ssh -k \x27" ++ o.ssh_public_keys ++ "\x27\n" ++
        "else\n" ++
        "   install -o \"$FIRSTUSER\" -m 700 -d \"$FIRSTUSERHOME/.ssh\"\n" ++
        "   cat > \"$FIRSTUSERHOME/.ssh/authorized_keys\" <<\x27EOF\x27\n" ++
        o.ssh_public_keys ++
        "\nEOF\n" ++
        "   chown \"$FIRSTUSER:$FIRSTUSER\" \"$FIRSTUSERHOME/.ssh/authorized_keys\"\n" ++
        "   chmod 600 \"$FIRSTUSERHOME/.ssh/authorized_keys\"\n" ++
        (if ¬ o.ssh_password_auth then
          "   echo \x27PasswordAuthentication no\x27 >>/etc/ssh/sshd_config\n"
         else "") ++
        "   systemctl enable ssh\n" ++
        "fi\n"
       else if o.ssh_password_auth then
        "if [ -f /usr/lib/raspberrypi-sys-mods/imager_custom ]; then\n" ++
        "   /usr/lib/raspberrypi-sys-mods/imager_custom enable_ssh\n" ++
        "else\n" ++
        "   systemctl enable ssh\n" ++
        "fi\n"
       else "")
    else "")
  -- 3. User Account
  let user := o.user_name
  let pwd := o.password.getD ""
  let script := script ++
    (if user ≠ "" ∧ pwd ≠ "" then
      let pwd_hash := hash_password salt pwd
      "if [ -f /usr/lib/userconf-pi/userconf ]; then\n" ++
      "   /usr/lib/userconf-pi/userconf " ++ shell_escape user ++ " " ++ shell_escape pwd_hash ++ "\n" ++
      "else\n" ++
      "   echo \"$FIRSTUSER:" ++ shell_escape pwd_hash ++ "\" | chpasswd -e\n" ++
      "   if [ \"$FIRSTUSER\" != \"" ++ user ++ "\" ]; then\n" ++
      "      usermod -l \"" ++ user ++ "\" \"$FIRSTUSER\"\n" ++
      "      usermod -m -d \"/home/" ++ user ++ "\" \"" ++ user ++ "\"\n" ++
      "      groupmod -n \"" ++ user ++ "\" \"$FIRSTUSER\"\n" ++
      "      if grep -q \"^autologin-user=\" /etc/lightdm/lightdm.conf ; then\n" ++
      "         sed /etc/lightdm/lightdm.conf -i -e \"s/^autologin-user=.*/autologin-user=" ++ user ++ "/\"\n" ++
      "      fi\n" ++
      "      if [ -f /etc/systemd/system/getty@tty1.service.d/autologin.conf ]; then\n" ++
      "         sed /etc/systemd/system/getty@tty1.service.d/autologin.conf -i -e \"s/$FIRSTUSER/" ++ user ++ "/\"\n" ++
      "      fi\n" ++
      "      if [ -f /etc/sudoers.d/010_pi-nopasswd ]; then\n" ++
      "         sed -i \"s/^$FIRSTUSER /" ++ user ++ " /\" /etc/sudoers.d/010_pi-nopasswd\n" ++
      "      fi\n" ++
      "   fi\n" ++
      "fi\n"
    else "")
  -- 4. WiFi
  let script := script ++
    (if o.wifi_ssid ≠ "" then
      let scan_ssid := if o.wifi_hidden then "scan_ssid=1" else ""
      let hidden_flag := if o.wifi_hidden then "-h" else ""
      "if [ -f /usr/lib/raspberrypi-sys-mods/imager_custom ]; then\n" ++
      "   /usr/lib/raspberrypi-sys-mods/imager_custom set_wlan " ++ hidden_flag ++ " " ++
        shell_escape o.wifi_ssid ++ " " ++ shell_escape o.wifi_password ++ " " ++
        shell_escape o.wifi_country ++ "\n" ++
      "else\n" ++
      "cat >/etc/wpa_supplicant/wpa_supplicant.conf <<\x27WPAEOF\x27\n" ++
      (if o.wifi_country ≠ "" then "country=" ++ o.wifi_country ++ "\n" else "") ++
      "ctrl_interface=DIR=/var/run/wpa_supplicant GROUP=netdev\n" ++
      "update_config=1\n" ++
      "network=\x7b\n" ++
      "    ssid=\"" ++ o.wifi_ssid ++ "\"\n" ++
      "    psk=\"" ++ o.wifi_password ++ "\"\n" ++
      "    " ++ scan_ssid ++ "\n" ++
      "\x7d\n" ++
      "WPAEOF\n" ++
      "   chmod 600 /etc/wpa_supplicant/wpa_supplicant.conf\n" ++
      "   rfkill unblock wifi || true\n" ++
      "   for filename in /var/lib/systemd/rfkill/*:wlan ; do\n" ++
      "       echo 0 > $filename\n" ++
      "   done\n" ++
      "fi\n"
    else if o.wifi_country ≠ "" then
      "rfkill unblock wifi || true\n" ++
      "for filename in /var/lib/systemd/rfkill/*:wlan ; do\n" ++
      "  echo 0 > $filename\n" ++
      "done\n"
    else "")
  -- 5. Locale / Timezone / Keyboard
  let script := script ++
    (if o.keyboard_layout ≠ "" ∨ o.timezone ≠ "" ∨ o.locale ≠ "" then
      "if [ -f /usr/lib/raspberrypi-sys-mods/imager_custom ]; then\n" ++
      (if o.keyboard_layout ≠ "" then
        "   /usr/lib/raspberrypi-sys-mods/imager_custom set_keymap " ++ shell_escape o.keyboard_layout ++ "\n"
       else "") ++
      (if o.timezone ≠ "" then
        "   /usr/lib/raspberrypi-sys-mods/imager_custom set_timezone " ++ shell_escape o.timezone ++ "\n"
       else "") ++
      "else\n" ++
      (if o.timezone ≠ "" then
        "   rm -f /etc/localtime\n" ++
        "   echo \"" ++ o.timezone ++ "\" >/etc/timezone\n" ++
        "   dpkg-reconfigure -f noninteractive tzdata\n"
       else "") ++
      (if o.keyboard_layout ≠ "" then
        "cat >/etc/default/keyboard <<\x27KBEOF\x27\n" ++
        "XKBMODEL=\"pc105\"\n" ++
        "XKBLAYOUT=\"" ++ o.keyboard_layout ++ "\"\n" ++
        "XKBVARIANT=\"\"\n" ++
        "XKBOPTIONS=\"\"\n" ++
        "\n" ++
        "KBEOF\n" ++
        "   dpkg-reconfigure -f noninteractive keyboard-configuration\n"
       else "") ++
      (if o.locale ≠ "en_GB.UTF-8" then
        "sed -i \x27s/^# *" ++ regex_escape o.locale ++ " /" ++ o.locale ++ " /\x27 /etc/locale.gen\n" ++
        "locale-gen\n" ++
        "update-locale LANG=" ++ o.locale ++ "\n"
       else "") ++
      "fi\n"
    else "")
  -- Cleanup
  let script := script ++ "rm -f /boot/firstrun.sh\n"
  let script := script ++ "sed -i \x27s| systemd.run.*||g\x27 /boot/cmdline.txt\n"
  let script := script ++ "exit 0\n"
  script

/-- rust_is_numeric models `char::is_numeric` for the characters that can
occur in a block-device node path; on ASCII it coincides with
`Char.isDigit`. -/
def rust_is_numeric (c : Char) : Bool := c.isDigit

/-- get_boot_partition mirrors `get_boot_partition` in `post_process.rs`.
`device_path.chars().last().unwrap()` panics on the empty string; the
panic is modelled as `none`. -/
def get_boot_partition (device_path : String) : Option String :=
  match device_path.data.getLast? with
  | none => none
  | some c =>
    some (if rust_is_numeric c then device_path ++ "p1" else device_path ++ "1")

/-- InstallError enumerates the failure sites of `apply_customization` in
`post_process.rs`, one constructor per `context`/`anyhow!` site. -/
inductive InstallError
  | createDirFailed
  | mountSpawnFailed
  | mountExitFailed
  | writeScriptFailed
  | readCmdlineFailed
  | writeCmdlineFailed
  | umountSpawnFailed
  | umountExitFailed
deriving DecidableEq

/-- InstallEnv supplies the outcome of every external effect performed by
`apply_customization`: filesystem operations, the `mount`/`umount`
commands (`none` means the command itself could not be run, `some b`
its exit success), the contents of `cmdline.txt` (`none` when the file
does not exist), and the salt consumed by `hash_password` while writing
the first-run script. -/
structure InstallEnv where
  createDirOk : Bool
  mountStatus : Option Bool
  writeScriptOk : Bool
  cmdline : Option String
  readCmdlineOk : Bool
  writeCmdlineOk : Bool
  umountStatus : Option Bool
  salt : String

/-- mount_point_for models the `/tmp/rpi-imager-tui-mnt-{pid}` private
mount point of `post_process.rs`. -/
def mount_point_for (pid : Nat) : String :=
  "/tmp/rpi-imager-tui-mnt-" ++ toString pid

/-- rewrite_cmdline mirrors the `cmdline.txt` patching in
`apply_customization`: strip any previous one-shot arguments, then append
the fresh ones to the single trimmed line. -/
def rewrite_cmdline (cmdline : String) : String :=
  let c := ((cmdline.replace (" systemd.run=/boot/firstrun.sh") "").replace
      (" systemd.run_success_action=reboot") "").replace
      (" systemd.unit=kernel-command-line.target") ""
  c.trim ++ " systemd.run=/boot/firstrun.sh systemd.run_success_action=reboot systemd.unit=kernel-command-line.target"

/-- apply_customization mirrors `apply_customization` in `post_process.rs`.
The outer `Option` models the `unwrap` panic inside `get_boot_partition`
(`none` = panic); the `Except` is the function's `Result`.  The inner
closure's result is computed first and the unmount outcome is checked
afterwards, exactly as in the source (an unmount failure overrides the
inner result). -/
def apply_customization (pid : Nat) (device_path : String)
    (options : CustomizationOptions) (env : InstallEnv) :
    Option (Except InstallError Unit) :=
  if ¬ options.needs_customization then some (Except.ok ())
  else
    match get_boot_partition device_path with
    | none => none
    | some _boot_partition =>
      let _mnt := mount_point_for pid
      if ¬ env.createDirOk then some (Except.error InstallError.createDirFailed)
      else
        match env.mountStatus with
        | none => some (Except.error InstallError.mountSpawnFailed)
        | some false => some (Except.error InstallError.mountExitFailed)
        | some true =>
          let _script := options.generate_firstrun_script env.salt
          let result : Except InstallError Unit :=
            if ¬ env.writeScriptOk then Except.error InstallError.writeScriptFailed
            else
              match env.cmdline with
              | some content =>
                if ¬ env.readCmdlineOk then Except.error InstallError.readCmdlineFailed
                else
                  let _newCmdline := rewrite_cmdline content
                  if ¬ env.writeCmdlineOk then Except.error InstallError.writeCmdlineFailed
                  else Except.ok ()
              | none => Except.ok ()  -- missing cmdline.txt is only a warning
          match env.umountStatus with
          | none => some (Except.error InstallError.umountSpawnFailed)
          | some false => some (Except.error InstallError.umountExitFailed)
          | some true => some result

/-! ## Transfer Engine (`writer.rs`) -/

/-- OsListItem keeps the fields of `os_list.rs`'s `OsListItem` that the
Transfer Engine reads (`url`, `extract_size`, `extract_sha256`) together
with the display name. -/
structure OsListItem where
  name : String
  url : Option String
  extract_size : Option Nat
  extract_sha256 : Option String
deriving DecidableEq

/-- Drive mirrors the `Drive` struct of `drivelist.rs`. -/
structure Drive where
  name : String
  description : String
  size : Nat
  removable : Bool
  readonly : Bool
  mountpoints : List String
deriving DecidableEq

/-- is_system mirrors `Drive::is_system`. -/
def Drive.is_system (d : Drive) : Bool :=
  d.mountpoints.any (fun mp => mp == "/")

/-- TransferError enumerates the error returns of `write_image` in
`writer.rs`, one constructor per `anyhow!`/`context` site, in source
order. -/
inductive TransferError
  | noUrl
  | downloadFailed
  | httpStatus
  | zipUnsupported
  | deviceOpenFailed
  | readFailed
  | writeFailed
  | flushFailed
  | syncFailed
  | integrity (expected computed : String)
  | seekFailed
  | verifyReadFailed
  | unexpectedEof
  | writeVerification (sourceHex diskHex : String)
deriving DecidableEq

/-- StatusMsg structures the distinct `WriteStatus` strings emitted by
`write_image`.  The formatted percentages are carried as rationals; the
wall-clock-derived MB/s figures are abstracted away (no property of the
program depends on them). -/
inductive StatusMsg
  | startingDownload
  | writingPct (pct : ℚ)
  | writingBytes (mb : Nat)
  | syncing
  | verifyingDownload
  | verifyingWrite
  | verifyingPct (pct : ℚ)
deriving DecidableEq

/-- WritingPhase mirrors the `WritingPhase` enum of `main.rs`. -/
inductive WritingPhase
  | Writing
  | Verifying
deriving DecidableEq

/-- InstallerError distinguishes, inside a worker error event, a Transfer
Engine error from a Boot Volume Installer error (both reach the channel
as `e.to_string()`; the model keeps them structured). -/
inductive WorkerError
  | transfer (e : TransferError)
  | install (e : InstallError)
deriving DecidableEq

/-- AppMessage mirrors the `AppMessage` enum of `main.rs`; the
`OsListLoaded` payload (the catalog, irrelevant to a transfer run) is
abstracted to `Unit`. -/
inductive AppMessage
  | OsListLoaded (r : Unit)
  | WriteProgress (p : ℚ)
  | VerifyProgress (p : ℚ)
  | WriteStatus (s : StatusMsg)
  | WriteFinished
  | WriteError (e : WorkerError)
  | WritingPhase (p : WritingPhase)
deriving DecidableEq

/-- Compression is the decoder selected from the source path's extension
in `write_image` (`plain` = pass-through for unknown extensions). -/
inductive Compression
  | xz
  | gz
  | zst
  | plain
deriving DecidableEq

/-- ends_with models `str::ends_with` via character-list suffixes. -/
def ends_with (s suffix : String) : Bool :=
  decide (suffix.data <:+ s.data)

/-- selectDecoder is the extension dispatch of `write_image` (lines
62-75 of `writer.rs`), in source order. -/
def selectDecoder (path : String) : Except TransferError Compression :=
  if ends_with path (".xz") then Except.ok Compression.xz
  else if ends_with path (".gz") then Except.ok Compression.gz
  else if ends_with path (".zst") then Except.ok Compression.zst
  else if ends_with path (".zip") then Except.error TransferError.zipUnsupported
  else Except.ok Compression.plain

/-- ReadStep is one `decoder.read(&mut buffer)` outcome supplied by the
environment: an I/O error, or a chunk of decompressed bytes (the empty
chunk is end-of-stream; an exhausted list also reads as end-of-stream). -/
inductive ReadStep
  | rerr
  | rok (bytes : List Nat)
deriving DecidableEq

/-- VerifyRead is one `device_file.read(&mut buffer[..to_read])` outcome
during verification: an I/O error, or the bytes the device returned. -/
inductive VerifyRead
  | verr
  | vok (bytes : List Nat)
deriving DecidableEq

/-- Env supplies every external interaction of one `write_image` run:
whether the HTTP request connects and returns a success status, the
parsed URL path (URL parsing by the `reqwest` crate is abstracted; only
the path's extension is consumed), whether the device opens, the decoder
read outcomes, per-iteration write success and 500 ms timer ticks, the
flush/sync/seek outcomes and the verification read outcomes. -/
structure Env where
  httpConnects : Bool
  httpStatusOk : Bool
  parsedPath : String
  deviceOpenOk : Bool
  reads : List ReadStep
  writeOk : Nat → Bool
  tick : Nat → Bool
  flushOk : Bool
  syncOk : Bool
  seekOk : Bool
  vreads : List VerifyRead
  vtick : Nat → Bool

/-- dispPct is the displayed write percentage: `total/size*100`, clamped
to 99 until sync and verification succeed (line 129-131 of `writer.rs`). -/
def dispPct (size total : Nat) : ℚ :=
  let p : ℚ := ((total : ℚ) / (size : ℚ)) * 100
  if 99 < p then 99 else p

/-- verifyPct is the displayed verification percentage (not clamped). -/
def verifyPct (size total : Nat) : ℚ :=
  ((total : ℚ) / (size : ℚ)) * 100

/-- writeTickEvents are the events of one timer tick inside the write
loop: with a known size, a progress percentage and a status line; without
one, a raw bytes-written status line. -/
def writeTickEvents (size total : Nat) (tick : Bool) : List AppMessage :=
  if tick then
    if 0 < size then
      [AppMessage.WriteProgress (dispPct size total),
       AppMessage.WriteStatus (StatusMsg.writingPct (dispPct size total))]
    else
      [AppMessage.WriteStatus (StatusMsg.writingBytes (total / 1024 / 1024))]
  else []

/-- verifyTickEvents are the events of one timer tick inside the
verification loop; nothing is emitted when the size is unknown (lines
238-247 of `writer.rs`). -/
def verifyTickEvents (size total : Nat) (tick : Bool) : List AppMessage :=
  if tick then
    if 0 < size then
      [AppMessage.VerifyProgress (verifyPct size total),
       AppMessage.WriteStatus (StatusMsg.verifyingPct (verifyPct size total))]
    else []
  else []

/-- WOut is the state threaded through the write loop: events emitted by
the loop, bytes fed to the source hasher, bytes written to the device,
the `total_written` counter and a possible error. -/
structure WOut where
  events : List AppMessage
  hashed : List Nat
  device : List Nat
  totalWritten : Nat
  err : Option TransferError
deriving DecidableEq

/-- runWriteLoop is the `loop` of lines 99-150 in `writer.rs`: read a
chunk (at most the buffer size), stop on end-of-stream, write it to the
device, hash it, bump `total_written`, and emit progress on a timer
tick. -/
def runWriteLoop (size : Nat) (writeOk tick : Nat → Bool) :
    List ReadStep → Nat → WOut → WOut
  | [], _, acc => acc
  | ReadStep.rerr :: _, _, acc => { acc with err := some TransferError.readFailed }
  | ReadStep.rok bs :: rest, i, acc =>
    let chunk := bs.take bufSize
    if chunk.length = 0 then acc
    else if writeOk i then
      runWriteLoop size writeOk tick rest (i + 1)
        { events := acc.events ++ writeTickEvents size (acc.totalWritten + chunk.length) (tick i),
          hashed := acc.hashed ++ chunk,
          device := acc.device ++ chunk,
          totalWritten := acc.totalWritten + chunk.length,
          err := none }
    else { acc with err := some TransferError.writeFailed }

/-- VOut is the state threaded through the verification loop. -/
structure VOut where
  events : List AppMessage
  hashed : List Nat
  totalRead : Nat
  err : Option TransferError
deriving DecidableEq

/-- runVerifyLoop is the `loop` of lines 211-250 in `writer.rs`: stop when
`total_written - total_read` reaches zero, otherwise read back at most
`min(buffer.len(), remaining)` bytes, treat a zero-byte read as an
unexpected EOF, hash what came back and emit verify progress on a timer
tick. -/
def runVerifyLoop (tw size : Nat) (tick : Nat → Bool) :
    List VerifyRead → Nat → VOut → VOut
  | [], _, acc =>
    if tw - acc.totalRead = 0 then acc
    else { acc with err := some TransferError.unexpectedEof }
  | VerifyRead.verr :: _, _, acc =>
    if tw - acc.totalRead = 0 then acc
    else { acc with err := some TransferError.verifyReadFailed }
  | VerifyRead.vok bs :: rest, i, acc =>
    if tw - acc.totalRead = 0 then acc
    else
      let toRead := min bufSize (tw - acc.totalRead)
      let chunk := bs.take toRead
      if chunk.length = 0 then { acc with err := some TransferError.unexpectedEof }
      else
        runVerifyLoop tw size tick rest (i + 1)
          { events := acc.events ++ verifyTickEvents size (acc.totalRead + chunk.length) (tick i),
            hashed := acc.hashed ++ chunk,
            totalRead := acc.totalRead + chunk.length,
            err := none }

/-- RunResult collects the observable effects of one `write_image` run:
the emitted events in order, the returned result (`none` = `Ok(())`),
whether the device open was attempted, whether the sync to stable storage
completed, the decoder that was selected, the `total_written` /
`total_read` counters, the bytes fed to the source hasher, the bytes read
back for verification and the bytes that reached the device. -/
structure RunResult where
  events : List AppMessage := []
  result : Option TransferError := none
  deviceOpenAttempted : Bool := false
  synced : Bool := false
  decoder : Option Compression := none
  totalWritten : Nat := 0
  totalRead : Nat := 0
  sourceBytes : List Nat := []
  readBackBytes : List Nat := []
  deviceBytes : List Nat := []
deriving DecidableEq

/-- integrityOk is the download-integrity comparison of lines 184-192 of
`writer.rs`: when an expected hash was supplied, the lowercased hex of
the accumulated source hash must equal the lowercased expected hash;
without one the check passes. -/
def integrityOk (sha : List Nat → List Nat) (hashed : List Nat)
    (expected? : Option String) : Bool :=
  match expected? with
  | some expected => asciiLower (hexEncode (sha hashed)) == asciiLower expected
  | none => true

/-- writeLoopOf is the write loop of one run, started from the empty
state, with the chunk stream, write outcomes and timer ticks supplied by
the environment. -/
def writeLoopOf (os : OsListItem) (env : Env) : WOut :=
  runWriteLoop (os.extract_size.getD 0) env.writeOk env.tick env.reads 0 ⟨[], [], [], 0, none⟩

/-- verifyLoopOf is the verification loop of one run, started from the
empty state, reading back `tw` bytes. -/
def verifyLoopOf (tw : Nat) (os : OsListItem) (env : Env) : VOut :=
  runVerifyLoop tw (os.extract_size.getD 0) env.vtick env.vreads 0 ⟨[], [], 0, none⟩

/-- initialEvents are the three events sent before the download starts
(lines 26-32 of `writer.rs`). -/
def initialEvents : List AppMessage :=
  [AppMessage.WriteProgress 0,
   AppMessage.WritingPhase WritingPhase.Writing,
   AppMessage.WriteStatus StatusMsg.startingDownload]

/-- transfer_core is `write_image` of `writer.rs` up to (but excluding)
the final `WriteFinished` event, parameterised by the abstract digest
function `sha`.  Each early `return Err(...)` of the source becomes an
early result with the events emitted so far. -/
def transfer_core (sha : List Nat → List Nat) (os : OsListItem) (_drive : Drive)
    (env : Env) : RunResult :=
  match os.url with
  | none => { result := some TransferError.noUrl }
  | some _url =>
    let ev0 := initialEvents
    if env.httpConnects then
      if env.httpStatusOk then
        match selectDecoder env.parsedPath with
        | Except.error e => { events := ev0, result := some e }
        | Except.ok comp =>
          if env.deviceOpenOk then
            let w := writeLoopOf os env
            let rW : RunResult :=
              { events := ev0 ++ w.events, deviceOpenAttempted := true, decoder := some comp,
                totalWritten := w.totalWritten, sourceBytes := w.hashed, deviceBytes := w.device }
            match w.err with
            | some e => { rW with result := some e }
            | none =>
              if env.flushOk then
                let r1 := { rW with events := rW.events ++ [AppMessage.WriteStatus StatusMsg.syncing] }
                if env.syncOk then
                  let r2 := { r1 with
                    events := r1.events ++
                      [AppMessage.WritingPhase WritingPhase.Verifying,
                       AppMessage.WriteStatus StatusMsg.verifyingDownload],
                    synced := true }
                  let srcHex := hexEncode (sha w.hashed)
                  if integrityOk sha w.hashed os.extract_sha256 then
                    let r3 := { r2 with events := r2.events ++ [AppMessage.WriteStatus StatusMsg.verifyingWrite] }
                    if env.seekOk then
                      let v := verifyLoopOf w.totalWritten os env
                      let r4 := { r3 with
                        events := r3.events ++ v.events,
                        totalRead := v.totalRead,
                        readBackBytes := v.hashed }
                      match v.err with
                      | some e => { r4 with result := some e }
                      | none =>
                        let diskHex := hexEncode (sha v.hashed)
                        if diskHex = srcHex then r4
                        else { r4 with result := some (TransferError.writeVerification srcHex diskHex) }
                    else { r3 with result := some TransferError.seekFailed }
                  else
                    { r2 with result := some (TransferError.integrity
                        (os.extract_sha256.getD "") srcHex) }
                else { r1 with result := some TransferError.syncFailed }
              else { rW with result := some TransferError.flushFailed }
          else { events := ev0, result := some TransferError.deviceOpenFailed,
                 deviceOpenAttempted := true, decoder := some comp }
      else { events := ev0, result := some TransferError.httpStatus }
    else { events := ev0, result := some TransferError.downloadFailed }

/-- write_image is the three-argument `write_image` of `writer.rs`: the
core pipeline, plus the terminal `WriteFinished` event on success. -/
def write_image (sha : List Nat → List Nat) (os : OsListItem) (drive : Drive)
    (env : Env) : RunResult :=
  let r := transfer_core sha os drive env
  match r.result with
  | none => { r with events := r.events ++ [AppMessage.WriteFinished] }
  | some _ => r

/-! ## Privilege-separated worker (`worker.rs`, worker mode of `main.rs`) -/

/-- WorkerMessage mirrors the `WorkerMessage` enum of `worker.rs`; the
`Status` payload stays structured (see `StatusMsg`), the `Phase` payload
is the literal string written by the worker and the `Error` payload is
the structured form of `e.to_string()`. -/
inductive WorkerMessage
  | Progress (p : ℚ)
  | VerifyProgress (p : ℚ)
  | Status (s : StatusMsg)
  | Phase (p : String)
  | Error (e : WorkerError)
  | Finished
deriving DecidableEq

/-- convertMessage is the `match msg` of the relay loop in `run_worker`
(lines 126-137 of `worker.rs`); `OsListLoaded` is skipped (`continue`). -/
def convertMessage : AppMessage → Option WorkerMessage
  | AppMessage.WriteProgress p => some (WorkerMessage.Progress p)
  | AppMessage.VerifyProgress p => some (WorkerMessage.VerifyProgress p)
  | AppMessage.WriteStatus s => some (WorkerMessage.Status s)
  | AppMessage.WritingPhase WritingPhase.Writing => some (WorkerMessage.Phase "Writing")
  | AppMessage.WritingPhase WritingPhase.Verifying => some (WorkerMessage.Phase "Verifying")
  | AppMessage.WriteError e => some (WorkerMessage.Error e)
  | AppMessage.WriteFinished => some WorkerMessage.Finished
  | AppMessage.OsListLoaded _ => none

/-- isTerminalW recognises the two terminal worker messages, after which
the relay loop breaks. -/
def isTerminalW : WorkerMessage → Bool
  | WorkerMessage.Finished => true
  | WorkerMessage.Error _ => true
  | _ => false

/-- relay is the worker's print loop: each channel message is converted
(JSON line encoding abstracted) and printed, and the loop breaks right
after the first terminal message. -/
def relay : List AppMessage → List WorkerMessage
  | [] => []
  | m :: rest =>
    match convertMessage m with
    | none => relay rest
    | some wm => if isTerminalW wm then [wm] else wm :: relay rest

/-- ParsedArgs is the result of the argument-scanning loop at the top of
`run_worker`. -/
structure ParsedArgs where
  image_url : String
  device_path : String
  sha256 : Option String
  size : Option Nat
  options_b64 : String
deriving DecidableEq

/-- parse_worker_args mirrors the `while i < args.len()` scan of
`run_worker`: a recognised flag stores the following argument (if any)
and skips it; anything else is ignored.  A trailing lone argument can
never store anything.  `--size` parses its value as a decimal number,
storing `none` on failure, like `parse::<u64>().ok()`. -/
def parse_worker_args : List String → ParsedArgs → ParsedArgs
  | [], acc => acc
  | [_], acc => acc
  | a :: v :: rest, acc =>
    if a = "--image" then parse_worker_args rest { acc with image_url := v }
    else if a = "--device" then parse_worker_args rest { acc with device_path := v }
    else if a = "--sha256" then parse_worker_args rest { acc with sha256 := some v }
    else if a = "--size" then parse_worker_args rest { acc with size := v.toNat? }
    else if a = "--options" then parse_worker_args rest { acc with options_b64 := v }
    else parse_worker_args (v :: rest) acc

/-- emptyParsedArgs is the initial state of the argument scan. -/
def emptyParsedArgs : ParsedArgs := ⟨"", "", none, none, ""⟩

/-- RunV2 collects the observable outcome of the four-argument
`write_image` invoked by `worker.rs`: the emitted events, the transfer
portion's result, the overall result, the Boot Volume Installer call (if
any) with its arguments, and whether the installer panicked. -/
structure RunV2 where
  events : List AppMessage
  transferErr : Option TransferError
  err : Option WorkerError
  installerCall : Option (String × CustomizationOptions)
  installPanicked : Bool
deriving DecidableEq

/-- Modelled from the spec: the four-argument revision of `write_image`
that `worker.rs` calls (`write_image(os, drive, options, tx)`) is missing
from the sources — `writer.rs` holds an earlier three-argument revision
without the customization step.  Per the spec, the worker "runs the
Transfer Engine, and — only if the transfer succeeds — invokes the Boot
Volume Installer", and emits the terminal event afterwards: so this runs
the transfer core and, exactly when it succeeds, invokes
`apply_customization` on the target device with the decoded settings,
emitting `WriteFinished` only if that also succeeds. -/
def write_image_v2 (sha : List Nat → List Nat) (os : OsListItem) (drive : Drive)
    (options : CustomizationOptions) (env : Env) (ienv : InstallEnv) (pid : Nat) : RunV2 :=
  let r := transfer_core sha os drive env
  match r.result with
  | some e =>
    { events := r.events, transferErr := some e, err := some (WorkerError.transfer e),
      installerCall := none, installPanicked := false }
  | none =>
    match apply_customization pid drive.name options ienv with
    | none =>
      { events := r.events, transferErr := none, err := none,
        installerCall := some (drive.name, options), installPanicked := true }
    | some (Except.error ie) =>
      { events := r.events, transferErr := none, err := some (WorkerError.install ie),
        installerCall := some (drive.name, options), installPanicked := false }
    | some (Except.ok _) =>
      { events := r.events ++ [AppMessage.WriteFinished], transferErr := none, err := none,
        installerCall := some (drive.name, options), installPanicked := false }

/-- WorkerRun is the observable outcome of one worker-mode process run:
the JSON lines printed to standard output (as structured messages), the
process exit code, and the pipeline outcome (absent when the argument
check failed before the pipeline was spawned). -/
structure WorkerRun where
  printed : List WorkerMessage
  exitCode : Nat
  pipeline : Option RunV2
deriving DecidableEq

/-- worker_os is the `OsListItem` the worker reconstructs from its parsed
arguments (lines 83-103 of `worker.rs`); fields not read by the engine
are omitted from the embedding. -/
def worker_os (p : ParsedArgs) : OsListItem :=
  { name := "Worker Image", url := some p.image_url,
    extract_size := p.size, extract_sha256 := p.sha256 }

/-- worker_drive is the `Drive` the worker reconstructs from its parsed
arguments (lines 105-113 of `worker.rs`). -/
def worker_drive (p : ParsedArgs) : Drive :=
  { name := p.device_path, description := "Target Drive", size := 0,
    removable := true, readonly := false, mountpoints := [] }

/-- worker_options is the settings decode of lines 72-80 of `worker.rs`:
defaults when no blob was passed, otherwise the (oracle-supplied) decode
result, total thanks to `unwrap_or_default`. -/
def worker_options (p : ParsedArgs) (decoded : CustomizationOptions) : CustomizationOptions :=
  if p.options_b64 = "" then CustomizationOptions.default else decoded

/-- run_worker_go is the worker body after the argument check: spawn the
write pipeline, relay its channel messages — the spawned task appends one
terminal `WriteError` when the pipeline failed, and a panicked task sends
nothing, merely closing the channel — and exit 0 when the relay loop
ends. -/
def run_worker_go (sha : List Nat → List Nat) (p : ParsedArgs)
    (decoded : CustomizationOptions) (env : Env) (ienv : InstallEnv) (pid : Nat) : WorkerRun :=
  let r := write_image_v2 sha (worker_os p) (worker_drive p) (worker_options p decoded) env ienv pid
  let msgs := r.events ++
    (if r.installPanicked then []
     else match r.err with
      | some e => [AppMessage.WriteError e]
      | none => [])
  { printed := relay msgs, exitCode := 0, pipeline := some r }

/-- run_worker mirrors `run_worker` of `worker.rs` together with the
worker-mode branch of `main` (`main.rs` lines 605-609): parse the
arguments, exit 1 if the required `--image`/`--device` values are
missing, otherwise run the pipeline and relay (see `run_worker_go`);
`run_worker` itself returns and `main` returns `Ok(())`, so the process
exits 0. -/
def run_worker (sha : List Nat → List Nat) (args : List String)
    (decoded : CustomizationOptions) (env : Env) (ienv : InstallEnv) (pid : Nat) : WorkerRun :=
  let p := parse_worker_args args emptyParsedArgs
  if p.image_url = "" ∨ p.device_path = "" then { printed := [], exitCode := 1, pipeline := none }
  else run_worker_go sha p decoded env ienv pid

/-! ## Lemmas about the shell escaping -/

/-- escChars of a list is empty exactly when the list is. -/
lemma escChars_eq_nil_iff (l : List Char) : escChars l = [] ↔ l = [] := by
  cases l with
  | nil => simp [escChars]
  | cons c rest =>
    simp only [escChars, escChar]
    constructor
    · intro h
      by_cases hq : c = '"' <;> by_cases hd : c = '$' <;> simp [hq, hd] at h
    · intro h
      exact absurd h (by simp)

/-- The head of an escaped character list is never a bare quote or dollar
sign: those are always preceded by a backslash. -/
lemma escChars_head (l : List Char) :
    escChars l = [] ∨ ∃ d t, escChars l = d :: t ∧ d ≠ '"' ∧ d ≠ '$' := by
  cases l with
  | nil => exact Or.inl rfl
  | cons c rest =>
    right
    by_cases hq : c = '"'
    · exact ⟨'\\', '"' :: escChars rest, by simp [escChars, escChar, hq], by decide, by decide⟩
    · by_cases hd : c = '$'
      · exact ⟨'\\', '$' :: escChars rest, by simp [escChars, escChar, hq, hd], by decide, by decide⟩
      · exact ⟨c, escChars rest, by simp [escChars, escChar, hq, hd], hq, hd⟩

/-- Decoding an escaped character list recovers the original exactly. -/
lemma unescChars_escChars (l : List Char) : unescChars (escChars l) = l := by
  induction l with
  | nil => rfl
  | cons c rest ih =>
    by_cases hq : c = '"'
    · subst hq
      simp [escChars, escChar, unescChars, ih]
    · by_cases hd : c = '$'
      · subst hd
        simp [escChars, escChar, unescChars, ih]
      · have hesc : escChars (c :: rest) = c :: escChars rest := by
          simp [escChars, escChar, hq, hd]
        rw [hesc]
        rcases escChars_head rest with hnil | ⟨d, t, ht, hdq, hdd⟩
        · rw [hnil]
          rw [hnil] at ih
          have : rest = [] := (escChars_eq_nil_iff rest).mp hnil
          simp [unescChars, this]
        · rw [ht]
          rw [ht] at ih
          have hcond : ¬ (c = '\\' ∧ (d = '"' ∨ d = '$')) := by
            rintro ⟨-, hd2 | hd2⟩
            · exact hdq hd2
            · exact hdd hd2
          simp only [unescChars, if_neg hcond]
          rw [ih]

/-- shell_unescape inverts shell_escape on every string. -/
lemma shell_unescape_shell_escape (s : String) :
    shell_unescape (shell_escape s) = s := by
  cases s with
  | mk data =>
    show String.mk (unescChars (escChars data)) = String.mk data
    rw [unescChars_escChars]

/-- C7: for every hostname or user-name value containing a double quote,
a dollar sign or a single quote, the shell escaping that the synthesizer
applies (`shell_escape`) is invertible: parsing the escaped occurrence
back (`shell_unescape`) recovers the original string exactly. -/
theorem shell_escape_roundtrip (s : String)
    (h : s.data.any (fun c => (c == '"') || (c == '$') || (c == '\x27')) = true) :
    shell_unescape (shell_escape s) = s :=
  shell_unescape_shell_escape s

/-- Witness for `shell_escape_roundtrip` at a value containing all three
special characters. -/
theorem shell_escape_roundtrip_witness :
    ("pi\"lab$\x27x").data.any (fun c => (c == '"') || (c == '$') || (c == '\x27')) = true ∧
    shell_unescape (shell_escape ("pi\"lab$\x27x")) = "pi\"lab$\x27x" :=
  ⟨by decide, shell_escape_roundtrip ("pi\"lab$\x27x") (by decide)⟩

/-! ## Provisioning synthesizer claims -/

/-- opts6 is `CustomizationOptions::default()` with a password set — the
configuration under which the synthesizer embeds a salted password hash. -/
def opts6 : CustomizationOptions :=
  { CustomizationOptions.default with password := some "secret" }

set_option maxRecDepth 100000 in
/-- Counterexample to C6 as stated: with a password set, two invocations
of the synthesizer on identical settings (which draw different random
salts for `sha512_crypt`) produce different bytes, so `synthesize` is not
idempotent or pure on such settings. -/
theorem firstrun_not_idempotent_counterexample :
    opts6.generate_firstrun_script ("aa") ≠ opts6.generate_firstrun_script ("bb") := by
  decide

/-- C6 (amended): for settings whose password is absent or empty, the
generated first-run script does not depend on the salt randomness, so two
invocations with identical settings yield byte-identical output; the
function is total by construction.  (With a password set, the embedded
salted crypt hash varies between calls — see the counterexample.) -/
theorem firstrun_idempotent_without_password (o : CustomizationOptions)
    (s1 s2 : String) (h : o.password = none ∨ o.password = some "") :
    o.generate_firstrun_script s1 = o.generate_firstrun_script s2 := by
  rcases h with h | h <;>
    simp [CustomizationOptions.generate_firstrun_script, h]

/-- Witness for `firstrun_idempotent_without_password` at the default
settings. -/
theorem firstrun_idempotent_witness :
    (CustomizationOptions.default.password = none ∨
      CustomizationOptions.default.password = some "") ∧
    CustomizationOptions.default.generate_firstrun_script ("A") =
      CustomizationOptions.default.generate_firstrun_script ("B") :=
  ⟨Or.inl rfl,
   firstrun_idempotent_without_password CustomizationOptions.default ("A") ("B") (Or.inl rfl)⟩

/-! ## Boot Volume Installer claims -/

/-- C9: for every non-empty whole-disk device path, the boot-partition
node is the path plus `p1` when the path's last character is a digit, and
the path plus a bare `1` otherwise — two distinct conventions. -/
theorem boot_partition_suffix_conventions (path : String) (c : Char)
    (h : path.data.getLast? = some c) :
    (rust_is_numeric c = true → get_boot_partition path = some (path ++ "p1")) ∧
    (rust_is_numeric c = false → get_boot_partition path = some (path ++ "1")) ∧
    path ++ "p1" ≠ path ++ "1" := by
  refine ⟨?_, ?_, ?_⟩
  · intro hc
    simp [get_boot_partition, h, hc]
  · intro hc
    simp [get_boot_partition, h, hc]
  · intro he
    have hlen := congrArg String.length he
    simp only [String.length_append] at hlen
    have h2 : ("p1" : String).length = 2 := by decide
    have h1 : ("1" : String).length = 1 := by decide
    omega

/-- Witness for `boot_partition_suffix_conventions` at an NVMe-style node
and a plain SCSI-style node. -/
theorem boot_partition_suffix_witness :
    ("/dev/nvme0n1" : String).data.getLast? = some '1' ∧
    get_boot_partition ("/dev/nvme0n1") = some (("/dev/nvme0n1" : String) ++ "p1") ∧
    get_boot_partition ("/dev/sda") = some (("/dev/sda" : String) ++ "1") :=
  ⟨by decide,
   (boot_partition_suffix_conventions ("/dev/nvme0n1") '1' (by decide)).1 (by decide),
   ((boot_partition_suffix_conventions ("/dev/sda") 'a' (by decide)).2).1 (by decide)⟩

/-- installEnvOk is an installer environment in which every external
operation succeeds. -/
def installEnvOk : InstallEnv where
  createDirOk := true
  mountStatus := some true
  writeScriptOk := true
  cmdline := some "console=serial0,115200 console=tty1 root=PARTUUID=7fd9a1b2-02 rootfstype=ext4 fsck.repair=yes rootwait"
  readCmdlineOk := true
  writeCmdlineOk := true
  umountStatus := some true
  salt := "s"

/-- Counterexample to C10 as stated: with all-default settings
(`needs_customization` false) the installer returns `Ok` before deriving
the boot partition, so calling `apply_customization` with an empty device
path does not panic in that case. -/
theorem apply_customization_empty_path_no_panic_counterexample :
    apply_customization 1 ("") CustomizationOptions.default installEnvOk =
      some (Except.ok ()) := by
  rfl

/-- With a non-empty device path, `apply_customization` never panics:
every branch after the partition derivation produces a `some` result. -/
lemma apply_customization_ne_none (pid : Nat) (path : String)
    (o : CustomizationOptions) (env : InstallEnv) (hp : path ≠ "") :
    apply_customization pid path o env ≠ none := by
  by_cases h : o.needs_customization = true
  · have hd : path.data ≠ [] := by
      intro hnil
      apply hp
      cases path with
      | mk data => simp only at hnil; rw [hnil]
    obtain ⟨c, hc⟩ : ∃ c, path.data.getLast? = some c := by
      cases hgl : path.data.getLast? with
      | none => exact absurd (List.getLast?_eq_none_iff.mp hgl) hd
      | some c => exact ⟨c, rfl⟩
    rcases env with ⟨cd, ms, ws, cl, rc, wc, us, sa⟩
    cases cd <;> rcases ms with _ | b <;> (try cases b) <;>
      rcases us with _ | b2 <;> (try cases b2) <;>
        simp [apply_customization, h, get_boot_partition, hc]
  · have h0 : o.needs_customization = false := by
      revert h; cases o.needs_customization <;> simp
    simp [apply_customization, h0]

/-- C10 (amended): the installer's partition derivation is partial at the
public interface — whenever the settings require customization, calling
`apply_customization` with an empty device path panics (modelled as
`none`) because `get_boot_partition` unwraps the last character; with a
non-empty device path it never panics, so totality needs exactly the
non-empty-path precondition (default settings return early instead). -/
theorem apply_customization_partiality_amended (pid : Nat)
    (o : CustomizationOptions) (env : InstallEnv) :
    (o.needs_customization = true → apply_customization pid ("") o env = none) ∧
    (∀ path : String, path ≠ "" → apply_customization pid path o env ≠ none) := by
  constructor
  · intro h
    simp [apply_customization, h, get_boot_partition]
  · intro path hp
    exact apply_customization_ne_none pid path o env hp

/-- opts10 requires customization (non-default hostname). -/
def opts10 : CustomizationOptions :=
  { CustomizationOptions.default with hostname := "pi-lab" }

/-- Witness for `apply_customization_partiality_amended`: with settings
that require customization, the empty path panics and a real device path
does not. -/
theorem apply_customization_partiality_witness :
    opts10.needs_customization = true ∧
    apply_customization 2 ("") opts10 installEnvOk = none ∧
    apply_customization 2 ("/dev/sda") opts10 installEnvOk ≠ none :=
  ⟨by decide,
   (apply_customization_partiality_amended 2 opts10 installEnvOk).1 (by decide),
   (apply_customization_partiality_amended 2 opts10 installEnvOk).2 ("/dev/sda") (by decide)⟩

/-! ## Event classification and loop lemmas -/

/-- writeish recognises the write-phase events: `Progress`, `Status` and
`Phase(Writing)`. -/
def writeish : AppMessage → Bool
  | AppMessage.WriteProgress _ => true
  | AppMessage.WriteStatus _ => true
  | AppMessage.WritingPhase WritingPhase.Writing => true
  | _ => false

/-- verifyish recognises the verify-phase events: `VerifyProgress` and
`Status`. -/
def verifyish : AppMessage → Bool
  | AppMessage.VerifyProgress _ => true
  | AppMessage.WriteStatus _ => true
  | _ => false

/-- Every event a write-loop timer tick emits is a write-phase event. -/
lemma mem_writeTickEvents {size total : Nat} {tick : Bool} {m : AppMessage}
    (h : m ∈ writeTickEvents size total tick) : writeish m = true := by
  unfold writeTickEvents at h
  by_cases t : tick
  · rw [if_pos t] at h
    by_cases s : 0 < size
    · rw [if_pos s] at h
      simp only [List.mem_cons, List.not_mem_nil, or_false] at h
      rcases h with rfl | rfl <;> rfl
    · rw [if_neg s] at h
      simp only [List.mem_cons, List.not_mem_nil, or_false] at h
      subst h
      rfl
  · rw [if_neg t] at h
    exact absurd h (by simp)

/-- Every event a verify-loop timer tick emits is a verify-phase event. -/
lemma mem_verifyTickEvents {size total : Nat} {tick : Bool} {m : AppMessage}
    (h : m ∈ verifyTickEvents size total tick) : verifyish m = true := by
  unfold verifyTickEvents at h
  by_cases t : tick
  · rw [if_pos t] at h
    by_cases s : 0 < size
    · rw [if_pos s] at h
      simp only [List.mem_cons, List.not_mem_nil, or_false] at h
      rcases h with rfl | rfl <;> rfl
    · rw [if_neg s] at h
      exact absurd h (by simp)
  · rw [if_neg t] at h
    exact absurd h (by simp)

/-- The write loop only appends write-phase events to the event list. -/
lemma runWriteLoop_events (size : Nat) (wk tk : Nat → Bool) :
    ∀ (reads : List ReadStep) (i : Nat) (acc : WOut),
      ∃ t, (runWriteLoop size wk tk reads i acc).events = acc.events ++ t ∧
        ∀ m ∈ t, writeish m = true := by
  intro reads
  induction reads with
  | nil =>
    intro i acc
    exact ⟨[], by simp [runWriteLoop], by simp⟩
  | cons r rest ih =>
    intro i acc
    cases r with
    | rerr => exact ⟨[], by simp [runWriteLoop], by simp⟩
    | rok bs =>
      simp only [runWriteLoop]
      by_cases hl : (bs.take bufSize).length = 0
      · rw [if_pos hl]
        exact ⟨[], by simp, by simp⟩
      · rw [if_neg hl]
        by_cases hw : wk i
        · rw [if_pos hw]
          obtain ⟨t, ht, hm⟩ := ih (i + 1)
            { events := acc.events ++ writeTickEvents size (acc.totalWritten + (bs.take bufSize).length) (tk i),
              hashed := acc.hashed ++ bs.take bufSize,
              device := acc.device ++ bs.take bufSize,
              totalWritten := acc.totalWritten + (bs.take bufSize).length,
              err := none }
          refine ⟨writeTickEvents size (acc.totalWritten + (bs.take bufSize).length) (tk i) ++ t, ?_, ?_⟩
          · rw [ht]
            simp [List.append_assoc]
          · intro m hm2
            rcases List.mem_append.mp hm2 with h2 | h2
            · exact mem_writeTickEvents h2
            · exact hm m h2
        · rw [if_neg hw]
          exact ⟨[], by simp, by simp⟩

/-- The write loop keeps the device bytes equal to the hashed bytes and
`total_written` equal to their length. -/
lemma runWriteLoop_inv (size : Nat) (wk tk : Nat → Bool) :
    ∀ (reads : List ReadStep) (i : Nat) (acc : WOut),
      acc.device = acc.hashed → acc.totalWritten = acc.hashed.length →
      (runWriteLoop size wk tk reads i acc).device = (runWriteLoop size wk tk reads i acc).hashed ∧
      (runWriteLoop size wk tk reads i acc).totalWritten = (runWriteLoop size wk tk reads i acc).hashed.length := by
  intro reads
  induction reads with
  | nil =>
    intro i acc h1 h2
    exact ⟨by simpa [runWriteLoop] using h1, by simpa [runWriteLoop] using h2⟩
  | cons r rest ih =>
    intro i acc h1 h2
    cases r with
    | rerr => exact ⟨by simpa [runWriteLoop] using h1, by simpa [runWriteLoop] using h2⟩
    | rok bs =>
      simp only [runWriteLoop]
      by_cases hl : (bs.take bufSize).length = 0
      · rw [if_pos hl]
        exact ⟨h1, h2⟩
      · rw [if_neg hl]
        by_cases hw : wk i
        · rw [if_pos hw]
          exact ih (i + 1) _ (by simp [h1]) (by simp [h2])
        · rw [if_neg hw]
          exact ⟨h1, h2⟩

/-- The verification loop only appends verify-phase events. -/
lemma runVerifyLoop_events (tw size : Nat) (tk : Nat → Bool) :
    ∀ (vreads : List VerifyRead) (i : Nat) (acc : VOut),
      ∃ t, (runVerifyLoop tw size tk vreads i acc).events = acc.events ++ t ∧
        ∀ m ∈ t, verifyish m = true := by
  intro vreads
  induction vreads with
  | nil =>
    intro i acc
    by_cases h0 : tw - acc.totalRead = 0
    · exact ⟨[], by simp [runVerifyLoop, h0], by simp⟩
    · exact ⟨[], by simp [runVerifyLoop, h0], by simp⟩
  | cons r rest ih =>
    intro i acc
    cases r with
    | verr =>
      by_cases h0 : tw - acc.totalRead = 0
      · exact ⟨[], by simp [runVerifyLoop, h0], by simp⟩
      · exact ⟨[], by simp [runVerifyLoop, h0], by simp⟩
    | vok bs =>
      by_cases h0 : tw - acc.totalRead = 0
      · exact ⟨[], by simp [runVerifyLoop, h0], by simp⟩
      · simp only [runVerifyLoop, if_neg h0]
        by_cases hl : (bs.take (min bufSize (tw - acc.totalRead))).length = 0
        · rw [if_pos hl]
          exact ⟨[], by simp, by simp⟩
        · rw [if_neg hl]
          obtain ⟨t, ht, hm⟩ := ih (i + 1)
            { events := acc.events ++ verifyTickEvents size (acc.totalRead + (bs.take (min bufSize (tw - acc.totalRead))).length) (tk i),
              hashed := acc.hashed ++ bs.take (min bufSize (tw - acc.totalRead)),
              totalRead := acc.totalRead + (bs.take (min bufSize (tw - acc.totalRead))).length,
              err := none }
          refine ⟨verifyTickEvents size (acc.totalRead + (bs.take (min bufSize (tw - acc.totalRead))).length) (tk i) ++ t, ?_, ?_⟩
          · rw [ht]
            simp [List.append_assoc]
          · intro m hm2
            rcases List.mem_append.mp hm2 with h2 | h2
            · exact mem_verifyTickEvents h2
            · exact hm m h2

/-- The verification loop reads back at most `total_written` bytes, keeps
the hashed read-back bytes in step with `total_read`, and finishes
without error only once `total_read` equals `total_written`. -/
lemma runVerifyLoop_inv (tw size : Nat) (tk : Nat → Bool) :
    ∀ (vreads : List VerifyRead) (i : Nat) (acc : VOut),
      acc.totalRead ≤ tw → acc.hashed.length = acc.totalRead → acc.err = none →
      (runVerifyLoop tw size tk vreads i acc).hashed.length =
        (runVerifyLoop tw size tk vreads i acc).totalRead ∧
      (runVerifyLoop tw size tk vreads i acc).totalRead ≤ tw ∧
      ((runVerifyLoop tw size tk vreads i acc).err = none →
        (runVerifyLoop tw size tk vreads i acc).totalRead = tw) := by
  intro vreads
  induction vreads with
  | nil =>
    intro i acc hle hlen herr
    by_cases h0 : tw - acc.totalRead = 0
    · refine ⟨by simpa [runVerifyLoop, h0] using hlen, by simpa [runVerifyLoop, h0] using hle, ?_⟩
      intro _
      simp only [runVerifyLoop, if_pos h0]
      omega
    · refine ⟨by simpa [runVerifyLoop, h0] using hlen, by simpa [runVerifyLoop, h0] using hle, ?_⟩
      intro hcontra
      simp [runVerifyLoop, h0] at hcontra
  | cons r rest ih =>
    intro i acc hle hlen herr
    cases r with
    | verr =>
      by_cases h0 : tw - acc.totalRead = 0
      · refine ⟨by simpa [runVerifyLoop, h0] using hlen, by simpa [runVerifyLoop, h0] using hle, ?_⟩
        intro _
        simp only [runVerifyLoop, if_pos h0]
        omega
      · refine ⟨by simpa [runVerifyLoop, h0] using hlen, by simpa [runVerifyLoop, h0] using hle, ?_⟩
        intro hcontra
        simp [runVerifyLoop, h0] at hcontra
    | vok bs =>
      by_cases h0 : tw - acc.totalRead = 0
      · refine ⟨by simpa [runVerifyLoop, h0] using hlen, by simpa [runVerifyLoop, h0] using hle, ?_⟩
        intro _
        simp only [runVerifyLoop, if_pos h0]
        omega
      · simp only [runVerifyLoop, if_neg h0]
        by_cases hl : (bs.take (min bufSize (tw - acc.totalRead))).length = 0
        · rw [if_pos hl]
          refine ⟨hlen, hle, ?_⟩
          intro hcontra
          simp at hcontra
        · rw [if_neg hl]
          have hchunk : (bs.take (min bufSize (tw - acc.totalRead))).length ≤ tw - acc.totalRead := by
            calc (bs.take (min bufSize (tw - acc.totalRead))).length
                ≤ min bufSize (tw - acc.totalRead) := by
                  simpa using List.length_take_le (min bufSize (tw - acc.totalRead)) bs
              _ ≤ tw - acc.totalRead := min_le_right _ _
          refine ih (i + 1) _ ?_ ?_ rfl
          · show acc.totalRead + (bs.take (min bufSize (tw - acc.totalRead))).length ≤ tw
            omega
          · show (acc.hashed ++ bs.take (min bufSize (tw - acc.totalRead))).length =
              acc.totalRead + (bs.take (min bufSize (tw - acc.totalRead))).length
            simp [hlen]

/-- Every event the write loop of a run emits is a write-phase event. -/
lemma writeLoopOf_events_mem (os : OsListItem) (env : Env) :
    ∀ m ∈ (writeLoopOf os env).events, writeish m = true := by
  obtain ⟨t, ht, hm⟩ :=
    runWriteLoop_events (os.extract_size.getD 0) env.writeOk env.tick env.reads 0 ⟨[], [], [], 0, none⟩
  intro m hmem
  unfold writeLoopOf at hmem
  rw [ht] at hmem
  exact hm m (by simpa using hmem)

/-- Every event the verification loop of a run emits is a verify-phase
event. -/
lemma verifyLoopOf_events_mem (tw : Nat) (os : OsListItem) (env : Env) :
    ∀ m ∈ (verifyLoopOf tw os env).events, verifyish m = true := by
  obtain ⟨t, ht, hm⟩ :=
    runVerifyLoop_events tw (os.extract_size.getD 0) env.vtick env.vreads 0 ⟨[], [], 0, none⟩
  intro m hmem
  unfold verifyLoopOf at hmem
  rw [ht] at hmem
  exact hm m (by simpa using hmem)

/-- The three initial events are write-phase events. -/
lemma initialEvents_writeish : ∀ m ∈ initialEvents, writeish m = true := by
  decide

/-- Structure of the core transfer trace: a write-phase prefix, optionally
followed by the single `Phase(Verifying)` event and a verify-phase
segment; a successful run always contains the `Phase(Verifying)` split. -/
lemma transfer_core_shape (sha : List Nat → List Nat) (os : OsListItem)
    (drive : Drive) (env : Env) :
    ∃ pre post,
      (∀ m ∈ pre, writeish m = true) ∧
      (∀ m ∈ post, verifyish m = true) ∧
      ((transfer_core sha os drive env).events = pre ∨
        (transfer_core sha os drive env).events =
          pre ++ AppMessage.WritingPhase WritingPhase.Verifying :: post) ∧
      ((transfer_core sha os drive env).result = none →
        (transfer_core sha os drive env).events =
          pre ++ AppMessage.WritingPhase WritingPhase.Verifying :: post) := by
  have hInit := initialEvents_writeish
  have hW := writeLoopOf_events_mem os env
  have hpre1 : ∀ m ∈ initialEvents ++ (writeLoopOf os env).events, writeish m = true := by
    intro m hm
    rcases List.mem_append.mp hm with h | h
    · exact hInit m h
    · exact hW m h
  have hpre2 : ∀ m ∈ initialEvents ++ ((writeLoopOf os env).events ++
      [AppMessage.WriteStatus StatusMsg.syncing]), writeish m = true := by
    intro m hm
    rcases List.mem_append.mp hm with h | h
    · exact hInit m h
    · rcases List.mem_append.mp h with h2 | h2
      · exact hW m h2
      · simp only [List.mem_singleton] at h2
        subst h2
        rfl
  cases hurl : os.url with
  | none =>
    exact ⟨[], [], by simp, by simp, Or.inl (by simp [transfer_core, hurl]),
      by simp [transfer_core, hurl]⟩
  | some url =>
    by_cases hc : env.httpConnects
    case neg =>
      exact ⟨initialEvents, [], hInit, by simp,
        Or.inl (by simp [transfer_core, hurl, hc]),
        by simp [transfer_core, hurl, hc]⟩
    case pos =>
    by_cases hs : env.httpStatusOk
    case neg =>
      exact ⟨initialEvents, [], hInit, by simp,
        Or.inl (by simp [transfer_core, hurl, hc, hs]),
        by simp [transfer_core, hurl, hc, hs]⟩
    case pos =>
    cases hsel : selectDecoder env.parsedPath with
    | error e =>
      exact ⟨initialEvents, [], hInit, by simp,
        Or.inl (by simp [transfer_core, hurl, hc, hs, hsel]),
        by simp [transfer_core, hurl, hc, hs, hsel]⟩
    | ok comp =>
      by_cases hd : env.deviceOpenOk
      case neg =>
        exact ⟨initialEvents, [], hInit, by simp,
          Or.inl (by simp [transfer_core, hurl, hc, hs, hsel, hd]),
          by simp [transfer_core, hurl, hc, hs, hsel, hd]⟩
      case pos =>
      cases hwerr : (writeLoopOf os env).err with
      | some e =>
        exact ⟨initialEvents ++ (writeLoopOf os env).events, [], hpre1, by simp,
          Or.inl (by simp [transfer_core, hurl, hc, hs, hsel, hd, hwerr]),
          by simp [transfer_core, hurl, hc, hs, hsel, hd, hwerr]⟩
      | none =>
        by_cases hf : env.flushOk
        case neg =>
          exact ⟨initialEvents ++ (writeLoopOf os env).events, [], hpre1, by simp,
            Or.inl (by simp [transfer_core, hurl, hc, hs, hsel, hd, hwerr, hf]),
            by simp [transfer_core, hurl, hc, hs, hsel, hd, hwerr, hf]⟩
        case pos =>
        by_cases hsy : env.syncOk
        case neg =>
          exact ⟨initialEvents ++ ((writeLoopOf os env).events ++
              [AppMessage.WriteStatus StatusMsg.syncing]), [], hpre2, by simp,
            Or.inl (by simp [transfer_core, hurl, hc, hs, hsel, hd, hwerr, hf, hsy]),
            by simp [transfer_core, hurl, hc, hs, hsel, hd, hwerr, hf, hsy]⟩
        case pos =>
        by_cases hI : integrityOk sha (writeLoopOf os env).hashed os.extract_sha256
        case neg =>
          refine ⟨initialEvents ++ ((writeLoopOf os env).events ++
              [AppMessage.WriteStatus StatusMsg.syncing]),
            [AppMessage.WriteStatus StatusMsg.verifyingDownload], hpre2, ?_, ?_, ?_⟩
          · intro m hm
            simp only [List.mem_singleton] at hm
            subst hm
            rfl
          · right
            simp [transfer_core, hurl, hc, hs, hsel, hd, hwerr, hf, hsy, hI]
          · intro hres
            simp [transfer_core, hurl, hc, hs, hsel, hd, hwerr, hf, hsy, hI] at hres
        case pos =>
        by_cases hsk : env.seekOk
        case neg =>
          refine ⟨initialEvents ++ ((writeLoopOf os env).events ++
              [AppMessage.WriteStatus StatusMsg.syncing]),
            [AppMessage.WriteStatus StatusMsg.verifyingDownload,
             AppMessage.WriteStatus StatusMsg.verifyingWrite], hpre2, ?_, ?_, ?_⟩
          · intro m hm
            simp only [List.mem_cons, List.not_mem_nil, or_false] at hm
            rcases hm with rfl | rfl <;> rfl
          · right
            simp [transfer_core, hurl, hc, hs, hsel, hd, hwerr, hf, hsy, hI, hsk]
          · intro hres
            simp [transfer_core, hurl, hc, hs, hsel, hd, hwerr, hf, hsy, hI, hsk] at hres
        case pos =>
        have hV := verifyLoopOf_events_mem (writeLoopOf os env).totalWritten os env
        have hpost : ∀ m ∈ [AppMessage.WriteStatus StatusMsg.verifyingDownload,
            AppMessage.WriteStatus StatusMsg.verifyingWrite] ++
            (verifyLoopOf (writeLoopOf os env).totalWritten os env).events,
            verifyish m = true := by
          intro m hm
          rcases List.mem_append.mp hm with h | h
          · simp only [List.mem_cons, List.not_mem_nil, or_false] at h
            rcases h with rfl | rfl <;> rfl
          · exact hV m h
        cases hverr : (verifyLoopOf (writeLoopOf os env).totalWritten os env).err with
        | some e =>
          refine ⟨initialEvents ++ ((writeLoopOf os env).events ++
              [AppMessage.WriteStatus StatusMsg.syncing]),
            [AppMessage.WriteStatus StatusMsg.verifyingDownload,
             AppMessage.WriteStatus StatusMsg.verifyingWrite] ++
              (verifyLoopOf (writeLoopOf os env).totalWritten os env).events,
            hpre2, hpost, ?_, ?_⟩
          · right
            simp [transfer_core, hurl, hc, hs, hsel, hd, hwerr, hf, hsy, hI, hsk, hverr]
          · intro hres
            simp [transfer_core, hurl, hc, hs, hsel, hd, hwerr, hf, hsy, hI, hsk, hverr] at hres
        | none =>
          by_cases hdh : hexEncode (sha (verifyLoopOf (writeLoopOf os env).totalWritten os env).hashed) =
              hexEncode (sha (writeLoopOf os env).hashed)
          case pos =>
            refine ⟨initialEvents ++ ((writeLoopOf os env).events ++
                [AppMessage.WriteStatus StatusMsg.syncing]),
              [AppMessage.WriteStatus StatusMsg.verifyingDownload,
               AppMessage.WriteStatus StatusMsg.verifyingWrite] ++
                (verifyLoopOf (writeLoopOf os env).totalWritten os env).events,
              hpre2, hpost, ?_, ?_⟩
            · right
              simp [transfer_core, hurl, hc, hs, hsel, hd, hwerr, hf, hsy, hI, hsk, hverr, hdh]
            · intro _
              simp [transfer_core, hurl, hc, hs, hsel, hd, hwerr, hf, hsy, hI, hsk, hverr, hdh]
          case neg =>
            refine ⟨initialEvents ++ ((writeLoopOf os env).events ++
                [AppMessage.WriteStatus StatusMsg.syncing]),
              [AppMessage.WriteStatus StatusMsg.verifyingDownload,
               AppMessage.WriteStatus StatusMsg.verifyingWrite] ++
                (verifyLoopOf (writeLoopOf os env).totalWritten os env).events,
              hpre2, hpost, ?_, ?_⟩
            · right
              simp [transfer_core, hurl, hc, hs, hsel, hd, hwerr, hf, hsy, hI, hsk, hverr, hdh]
            · intro hres
              simp [transfer_core, hurl, hc, hs, hsel, hd, hwerr, hf, hsy, hI, hsk, hverr, hdh] at hres

/-- The core transfer trace never contains the terminal `Finished` event
(the wrapper appends it after a successful run). -/
lemma transfer_core_no_finished (sha : List Nat → List Nat) (os : OsListItem)
    (drive : Drive) (env : Env) :
    AppMessage.WriteFinished ∉ (transfer_core sha os drive env).events := by
  obtain ⟨pre, post, hpre, hpost, hsplit, -⟩ := transfer_core_shape sha os drive env
  intro hmem
  rcases hsplit with h | h <;> rw [h] at hmem
  · exact absurd (hpre _ hmem) (by decide)
  · rcases List.mem_append.mp hmem with h2 | h2
    · exact absurd (hpre _ h2) (by decide)
    · rcases List.mem_cons.mp h2 with h3 | h3
      · cases h3
      · exact absurd (hpost _ h3) (by decide)

/-- writeishW recognises write-phase worker messages. -/
def writeishW : WorkerMessage → Bool
  | WorkerMessage.Progress _ => true
  | WorkerMessage.Status _ => true
  | WorkerMessage.Phase p => p == "Writing"
  | _ => false

/-- verifyishW recognises verify-phase worker messages. -/
def verifyishW : WorkerMessage → Bool
  | WorkerMessage.VerifyProgress _ => true
  | WorkerMessage.Status _ => true
  | _ => false

/-- A write-phase worker message is never terminal. -/
lemma writeishW_not_terminal {wm : WorkerMessage} (h : writeishW wm = true) :
    isTerminalW wm = false := by
  cases wm <;> first | rfl | exact absurd h (by simp [writeishW])

/-- A verify-phase worker message is never terminal. -/
lemma verifyishW_not_terminal {wm : WorkerMessage} (h : verifyishW wm = true) :
    isTerminalW wm = false := by
  cases wm <;> first | rfl | exact absurd h (by simp [verifyishW])

/-- A write-phase channel event converts to a non-terminal write-phase
worker message. -/
lemma convert_writeish {m : AppMessage} (h : writeish m = true) :
    ∃ wm, convertMessage m = some wm ∧ writeishW wm = true := by
  cases m with
  | WriteProgress p => exact ⟨WorkerMessage.Progress p, rfl, rfl⟩
  | WriteStatus s => exact ⟨WorkerMessage.Status s, rfl, rfl⟩
  | WritingPhase ph =>
    cases ph with
    | Writing => exact ⟨WorkerMessage.Phase "Writing", rfl, by simp [writeishW]⟩
    | Verifying => exact absurd h (by simp [writeish])
  | VerifyProgress p => exact absurd h (by simp [writeish])
  | WriteFinished => exact absurd h (by simp [writeish])
  | WriteError e => exact absurd h (by simp [writeish])
  | OsListLoaded r => exact absurd h (by simp [writeish])

/-- A verify-phase channel event converts to a non-terminal verify-phase
worker message. -/
lemma convert_verifyish {m : AppMessage} (h : verifyish m = true) :
    ∃ wm, convertMessage m = some wm ∧ verifyishW wm = true := by
  cases m with
  | VerifyProgress p => exact ⟨WorkerMessage.VerifyProgress p, rfl, rfl⟩
  | WriteStatus s => exact ⟨WorkerMessage.Status s, rfl, rfl⟩
  | WriteProgress p => exact absurd h (by simp [verifyish])
  | WritingPhase ph => exact absurd h (by simp [verifyish])
  | WriteFinished => exact absurd h (by simp [verifyish])
  | WriteError e => exact absurd h (by simp [verifyish])
  | OsListLoaded r => exact absurd h (by simp [verifyish])

/-- Converted write-phase events stay write-phase. -/
lemma filterMap_writeish {l : List AppMessage} (hl : ∀ m ∈ l, writeish m = true) :
    ∀ wm ∈ l.filterMap convertMessage, writeishW wm = true := by
  intro wm hwm
  obtain ⟨m, hm, hconv⟩ := List.mem_filterMap.mp hwm
  obtain ⟨wm2, hc2, hw2⟩ := convert_writeish (hl m hm)
  rw [hc2] at hconv
  exact Option.some.inj hconv ▸ hw2

/-- Converted verify-phase events stay verify-phase. -/
lemma filterMap_verifyish {l : List AppMessage} (hl : ∀ m ∈ l, verifyish m = true) :
    ∀ wm ∈ l.filterMap convertMessage, verifyishW wm = true := by
  intro wm hwm
  obtain ⟨m, hm, hconv⟩ := List.mem_filterMap.mp hwm
  obtain ⟨wm2, hc2, hw2⟩ := convert_verifyish (hl m hm)
  rw [hc2] at hconv
  exact Option.some.inj hconv ▸ hw2

/-- Relaying a stream whose prefix converts to non-terminal messages
keeps the prefix (converted) and continues with the tail. -/
lemma relay_append_nonterminal :
    ∀ (xs : List AppMessage) (t : List AppMessage),
      (∀ m ∈ xs, ∃ wm, convertMessage m = some wm ∧ isTerminalW wm = false) →
      relay (xs ++ t) = xs.filterMap convertMessage ++ relay t := by
  intro xs t h
  induction xs with
  | nil => simp
  | cons m rest ih =>
    obtain ⟨wm, hwm, hnt⟩ := h m (by simp)
    have ih2 := ih (fun m2 hm2 => h m2 (by simp [hm2]))
    simp only [List.cons_append, relay, hwm, List.filterMap_cons]
    rw [if_neg (by simp [hnt])]
    simp only [List.append_eq]
    rw [ih2]

/-- Every core trace event converts to a non-terminal worker message. -/
lemma core_events_convertible (sha : List Nat → List Nat) (os : OsListItem)
    (drive : Drive) (env : Env) :
    ∀ m ∈ (transfer_core sha os drive env).events,
      ∃ wm, convertMessage m = some wm ∧ isTerminalW wm = false := by
  obtain ⟨pre, post, hpre, hpost, hsplit, -⟩ := transfer_core_shape sha os drive env
  intro m hmem
  have hcase : writeish m = true ∨ verifyish m = true ∨
      m = AppMessage.WritingPhase WritingPhase.Verifying := by
    rcases hsplit with h | h <;> rw [h] at hmem
    · exact Or.inl (hpre m hmem)
    · rcases List.mem_append.mp hmem with h2 | h2
      · exact Or.inl (hpre m h2)
      · rcases List.mem_cons.mp h2 with h3 | h3
        · exact Or.inr (Or.inr h3)
        · exact Or.inr (Or.inl (hpost m h3))
  rcases hcase with h | h | h
  · obtain ⟨wm, hc, hw⟩ := convert_writeish h
    exact ⟨wm, hc, writeishW_not_terminal hw⟩
  · obtain ⟨wm, hc, hw⟩ := convert_verifyish h
    exact ⟨wm, hc, verifyishW_not_terminal hw⟩
  · subst h
    exact ⟨WorkerMessage.Phase "Verifying", rfl, rfl⟩

/-- Structure of the events and outcome of the four-argument write
pipeline: when the target device path is non-empty the installer never
panics; the trace is a write-phase prefix, optionally the
`Phase(Verifying)` split with a verify-phase segment, and the terminal
`Finished` is present exactly when the overall run succeeded. -/
lemma write_image_v2_shape (sha : List Nat → List Nat) (os : OsListItem)
    (drive : Drive) (options : CustomizationOptions) (env : Env) (ienv : InstallEnv)
    (pid : Nat) (hd : drive.name ≠ "") :
    (write_image_v2 sha os drive options env ienv pid).installPanicked = false ∧
    ∃ pre post,
      (∀ m ∈ pre, writeish m = true) ∧
      (∀ m ∈ post, verifyish m = true) ∧
      (((write_image_v2 sha os drive options env ienv pid).err = none ∧
          (write_image_v2 sha os drive options env ienv pid).events =
            (pre ++ AppMessage.WritingPhase WritingPhase.Verifying :: post) ++
              [AppMessage.WriteFinished]) ∨
        (∃ e, (write_image_v2 sha os drive options env ienv pid).err = some e ∧
          ((write_image_v2 sha os drive options env ienv pid).events = pre ∨
            (write_image_v2 sha os drive options env ienv pid).events =
              pre ++ AppMessage.WritingPhase WritingPhase.Verifying :: post))) := by
  obtain ⟨pre, post, hpre, hpost, hsplit, hok⟩ := transfer_core_shape sha os drive env
  cases hres : (transfer_core sha os drive env).result with
  | some e =>
    refine ⟨by simp [write_image_v2, hres], pre, post, hpre, hpost, Or.inr ⟨WorkerError.transfer e, ?_, ?_⟩⟩
    · simp [write_image_v2, hres]
    · have : (write_image_v2 sha os drive options env ienv pid).events =
          (transfer_core sha os drive env).events := by
        simp [write_image_v2, hres]
      rw [this]
      exact hsplit
  | none =>
    have hev := hok hres
    cases happly : apply_customization pid drive.name options ienv with
    | none => exact absurd happly (apply_customization_ne_none pid drive.name options ienv hd)
    | some res =>
      cases res with
      | error ie =>
        refine ⟨by simp [write_image_v2, hres, happly], pre, post, hpre, hpost,
          Or.inr ⟨WorkerError.install ie, ?_, Or.inr ?_⟩⟩
        · simp [write_image_v2, hres, happly]
        · have : (write_image_v2 sha os drive options env ienv pid).events =
              (transfer_core sha os drive env).events := by
            simp [write_image_v2, hres, happly]
          rw [this]
          exact hev
      | ok u =>
        refine ⟨by simp [write_image_v2, hres, happly], pre, post, hpre, hpost,
          Or.inl ⟨by simp [write_image_v2, hres, happly], ?_⟩⟩
        have : (write_image_v2 sha os drive options env ienv pid).events =
            (transfer_core sha os drive env).events ++ [AppMessage.WriteFinished] := by
          simp [write_image_v2, hres, happly]
        rw [this, hev]

/-- Write-phase events followed by the `Phase(Verifying)` split and
verify-phase events all convert to non-terminal worker messages. -/
lemma decomp_convertible {pre post : List AppMessage}
    (hpre : ∀ m ∈ pre, writeish m = true) (hpost : ∀ m ∈ post, verifyish m = true) :
    ∀ m ∈ pre ++ AppMessage.WritingPhase WritingPhase.Verifying :: post,
      ∃ wm, convertMessage m = some wm ∧ isTerminalW wm = false := by
  intro m hm
  rcases List.mem_append.mp hm with h | h
  · obtain ⟨wm, hc, hw⟩ := convert_writeish (hpre m h)
    exact ⟨wm, hc, writeishW_not_terminal hw⟩
  · rcases List.mem_cons.mp h with h2 | h2
    · subst h2
      exact ⟨WorkerMessage.Phase "Verifying", rfl, rfl⟩
    · obtain ⟨wm, hc, hw⟩ := convert_verifyish (hpost m h2)
      exact ⟨wm, hc, verifyishW_not_terminal hw⟩

/-- Write-phase events alone convert to non-terminal worker messages. -/
lemma pre_convertible {pre : List AppMessage}
    (hpre : ∀ m ∈ pre, writeish m = true) :
    ∀ m ∈ pre, ∃ wm, convertMessage m = some wm ∧ isTerminalW wm = false := by
  intro m hm
  obtain ⟨wm, hc, hw⟩ := convert_writeish (hpre m hm)
  exact ⟨wm, hc, writeishW_not_terminal hw⟩

/-- Structure of the worker's printed stream, for any parsed arguments
with a non-empty device path: exit code 0, a write-phase segment, an
optional `Phase("Verifying")`-headed verify-phase segment, and exactly
one terminal message at the very end — `Finished` (with the verify
segment present) when the pipeline succeeded, else the pipeline's
`Error`. -/
lemma run_worker_go_shape (sha : List Nat → List Nat) (p : ParsedArgs)
    (decoded : CustomizationOptions) (env : Env) (ienv : InstallEnv) (pid : Nat)
    (hdev : p.device_path ≠ "") :
    (run_worker_go sha p decoded env ienv pid).exitCode = 0 ∧
    ∃ r w v t,
      (run_worker_go sha p decoded env ienv pid).pipeline = some r ∧
      (run_worker_go sha p decoded env ienv pid).printed = w ++ (v ++ [t]) ∧
      (∀ m ∈ w, writeishW m = true) ∧
      (v = [] ∨ ∃ v2, v = WorkerMessage.Phase "Verifying" :: v2 ∧
        ∀ m ∈ v2, verifyishW m = true) ∧
      ((r.err = none ∧ t = WorkerMessage.Finished ∧ v ≠ []) ∨
        (∃ e, r.err = some e ∧ t = WorkerMessage.Error e)) := by
  have hdrive : (worker_drive p).name ≠ "" := hdev
  obtain ⟨hpan, pre, post, hpre, hpost, hdisj⟩ :=
    write_image_v2_shape sha (worker_os p) (worker_drive p) (worker_options p decoded)
      env ienv pid hdrive
  refine ⟨rfl, write_image_v2 sha (worker_os p) (worker_drive p) (worker_options p decoded) env ienv pid,
    ?_⟩
  have hprint : (run_worker_go sha p decoded env ienv pid).printed =
      relay ((write_image_v2 sha (worker_os p) (worker_drive p) (worker_options p decoded) env ienv pid).events ++
        (if (write_image_v2 sha (worker_os p) (worker_drive p) (worker_options p decoded) env ienv pid).installPanicked then []
         else match (write_image_v2 sha (worker_os p) (worker_drive p) (worker_options p decoded) env ienv pid).err with
          | some e => [AppMessage.WriteError e]
          | none => [])) := rfl
  rw [hpan, if_neg (by simp)] at hprint
  rcases hdisj with ⟨herr, hev⟩ | ⟨e, herr, hev⟩
  · -- success: Finished terminal after the full decomposition
    rw [herr, hev] at hprint
    dsimp only at hprint
    rw [List.append_nil] at hprint
    rw [relay_append_nonterminal _ _ (decomp_convertible hpre hpost)] at hprint
    refine ⟨List.filterMap convertMessage pre,
      WorkerMessage.Phase "Verifying" :: List.filterMap convertMessage post,
      WorkerMessage.Finished, rfl, ?_, filterMap_writeish hpre, ?_, ?_⟩
    · rw [hprint]
      simp [List.filterMap_append, List.filterMap_cons, convertMessage, relay, isTerminalW]
    · exact Or.inr ⟨List.filterMap convertMessage post, rfl, filterMap_verifyish hpost⟩
    · exact Or.inl ⟨herr, rfl, by simp⟩
  · -- failure: Error terminal
    rw [herr] at hprint
    dsimp only at hprint
    rcases hev with hev | hev <;> rw [hev] at hprint
    · rw [relay_append_nonterminal _ _ (pre_convertible hpre)] at hprint
      refine ⟨List.filterMap convertMessage pre, [], WorkerMessage.Error e, rfl, ?_,
        filterMap_writeish hpre, Or.inl rfl, Or.inr ⟨e, herr, rfl⟩⟩
      rw [hprint]
      simp [relay, convertMessage, isTerminalW]
    · rw [relay_append_nonterminal _ _ (decomp_convertible hpre hpost)] at hprint
      refine ⟨List.filterMap convertMessage pre,
        WorkerMessage.Phase "Verifying" :: List.filterMap convertMessage post,
        WorkerMessage.Error e, rfl, ?_,
        filterMap_writeish hpre,
        Or.inr ⟨List.filterMap convertMessage post, rfl, filterMap_verifyish hpost⟩,
        Or.inr ⟨e, herr, rfl⟩⟩
      rw [hprint]
      simp [List.filterMap_append, List.filterMap_cons, convertMessage, relay, isTerminalW]

/-- With both required arguments present, the worker run is the pipeline
stage. -/
lemma run_worker_eq_go (sha : List Nat → List Nat) (args : List String)
    (decoded : CustomizationOptions) (env : Env) (ienv : InstallEnv) (pid : Nat)
    (h1 : (parse_worker_args args emptyParsedArgs).image_url ≠ "")
    (h2 : (parse_worker_args args emptyParsedArgs).device_path ≠ "") :
    run_worker sha args decoded env ienv pid =
      run_worker_go sha (parse_worker_args args emptyParsedArgs) decoded env ienv pid := by
  simp [run_worker, h1, h2]

/-- The pipeline records an installer call exactly when the transfer
succeeded, and the call carries the target device path and the decoded
settings. -/
lemma write_image_v2_installer (sha : List Nat → List Nat) (os : OsListItem)
    (drive : Drive) (options : CustomizationOptions) (env : Env) (ienv : InstallEnv)
    (pid : Nat) :
    ((write_image_v2 sha os drive options env ienv pid).transferErr = none →
      (write_image_v2 sha os drive options env ienv pid).installerCall =
        some (drive.name, options)) ∧
    (∀ e, (write_image_v2 sha os drive options env ienv pid).transferErr = some e →
      (write_image_v2 sha os drive options env ienv pid).installerCall = none) := by
  cases hres : (transfer_core sha os drive env).result with
  | some e =>
    constructor
    · intro h
      simp [write_image_v2, hres] at h
    · intro e2 _
      simp [write_image_v2, hres]
  | none =>
    cases happly : apply_customization pid drive.name options ienv with
    | none =>
      constructor
      · intro _
        simp [write_image_v2, hres, happly]
      · intro e2 h
        simp [write_image_v2, hres, happly] at h
    | some res =>
      cases res with
      | error ie =>
        constructor
        · intro _
          simp [write_image_v2, hres, happly]
        · intro e2 h
          simp [write_image_v2, hres, happly] at h
      | ok u =>
        constructor
        · intro _
          simp [write_image_v2, hres, happly]
        · intro e2 h
          simp [write_image_v2, hres, happly] at h

/-- C1: for every worker run with well-formed required arguments, the
worker invokes the Boot Volume Installer (`apply_customization`) on the
target device with the decoded provisioning settings exactly when the
Transfer Engine invocation succeeds, and never when it fails.  (The
four-argument `write_image` that performs this sequencing is modelled
from the spec in `write_image_v2`, since only an earlier revision without
it survives in `writer.rs`.) -/
theorem worker_invokes_installer_iff_transfer_succeeds (sha : List Nat → List Nat)
    (args : List String) (decoded : CustomizationOptions) (env : Env)
    (ienv : InstallEnv) (pid : Nat)
    (h1 : (parse_worker_args args emptyParsedArgs).image_url ≠ "")
    (h2 : (parse_worker_args args emptyParsedArgs).device_path ≠ "") :
    ∃ r, (run_worker sha args decoded env ienv pid).pipeline = some r ∧
      (r.transferErr = none →
        r.installerCall = some ((parse_worker_args args emptyParsedArgs).device_path,
          worker_options (parse_worker_args args emptyParsedArgs) decoded)) ∧
      (∀ e, r.transferErr = some e → r.installerCall = none) := by
  rw [run_worker_eq_go sha args decoded env ienv pid h1 h2]
  exact ⟨_, rfl,
    (write_image_v2_installer sha (worker_os (parse_worker_args args emptyParsedArgs))
      (worker_drive (parse_worker_args args emptyParsedArgs))
      (worker_options (parse_worker_args args emptyParsedArgs) decoded) env ienv pid).1,
    (write_image_v2_installer sha (worker_os (parse_worker_args args emptyParsedArgs))
      (worker_drive (parse_worker_args args emptyParsedArgs))
      (worker_options (parse_worker_args args emptyParsedArgs) decoded) env ienv pid).2⟩

/-- idDigest instantiates the abstract SHA-256 with the identity digest
for concrete witnesses. -/
def idDigest : List Nat → List Nat := fun l => l

/-- argsC is a well-formed worker invocation. -/
def argsC : List String := ["--image", "http://h/img", "--device", "/dev/sdx"]

/-- envOkC is an environment in which every step of the transfer
succeeds: one one-byte chunk is written and read back identically. -/
def envOkC : Env where
  httpConnects := true
  httpStatusOk := true
  parsedPath := "/img"
  deviceOpenOk := true
  reads := [ReadStep.rok [1]]
  writeOk := fun _ => true
  tick := fun _ => false
  flushOk := true
  syncOk := true
  seekOk := true
  vreads := [VerifyRead.vok [1]]
  vtick := fun _ => false

/-- Witness for `worker_invokes_installer_iff_transfer_succeeds` at a run
whose transfer succeeds. -/
theorem worker_invokes_installer_witness :
    ((parse_worker_args argsC emptyParsedArgs).image_url ≠ "" ∧
     (parse_worker_args argsC emptyParsedArgs).device_path ≠ "") ∧
    ∃ r, (run_worker idDigest argsC CustomizationOptions.default envOkC installEnvOk 1).pipeline = some r ∧
      (r.transferErr = none →
        r.installerCall = some ((parse_worker_args argsC emptyParsedArgs).device_path,
          worker_options (parse_worker_args argsC emptyParsedArgs) CustomizationOptions.default)) ∧
      (∀ e, r.transferErr = some e → r.installerCall = none) :=
  ⟨⟨by decide, by decide⟩,
   worker_invokes_installer_iff_transfer_succeeds idDigest argsC CustomizationOptions.default
     envOkC installEnvOk 1 (by decide) (by decide)⟩

/-- argsZip requests a `.zip` source, which the engine rejects. -/
def argsZip : List String := ["--image", "http://h/os.zip", "--device", "/dev/sdz"]

/-- envZip is an otherwise-healthy environment whose source path carries
a `.zip` extension. -/
def envZip : Env where
  httpConnects := true
  httpStatusOk := true
  parsedPath := "/os.zip"
  deviceOpenOk := true
  reads := []
  writeOk := fun _ => true
  tick := fun _ => false
  flushOk := true
  syncOk := true
  seekOk := true
  vreads := []
  vtick := fun _ => false

/-- Counterexample to C2 as stated: this worker run ends in a terminal
`Error` event (the transfer failed on the unsupported `.zip` source), yet
the worker process exits with status zero — `run_worker` returns after
the relay loop and `main` returns `Ok(())` — contradicting "exits with a
non-zero status whenever the run ends in an error". -/
theorem worker_error_exit_zero_counterexample :
    (run_worker idDigest argsZip CustomizationOptions.default envZip installEnvOk 1).printed.getLast? =
      some (WorkerMessage.Error (WorkerError.transfer TransferError.zipUnsupported)) ∧
    (run_worker idDigest argsZip CustomizationOptions.default envZip installEnvOk 1).exitCode = 0 := by
  constructor <;> rfl

/-- C2 (amended): for every worker-mode run with well-formed required
arguments the worker exits with status zero — both when the stream ends
in `Finished` and when it ends in an error; errors are signalled solely
by the event stream, which contains exactly one terminal event, an
`Error` carrying the failure exactly when the pipeline failed (a non-zero
exit occurs only for missing required arguments, before any event). -/
theorem worker_exit_amended (sha : List Nat → List Nat) (args : List String)
    (decoded : CustomizationOptions) (env : Env) (ienv : InstallEnv) (pid : Nat)
    (h1 : (parse_worker_args args emptyParsedArgs).image_url ≠ "")
    (h2 : (parse_worker_args args emptyParsedArgs).device_path ≠ "") :
    (run_worker sha args decoded env ienv pid).exitCode = 0 ∧
    ∃ r, (run_worker sha args decoded env ienv pid).pipeline = some r ∧
      (r.err = none →
        (run_worker sha args decoded env ienv pid).printed.getLast? =
          some WorkerMessage.Finished) ∧
      (∀ e, r.err = some e →
        (run_worker sha args decoded env ienv pid).printed.getLast? =
          some (WorkerMessage.Error e)) ∧
      (run_worker sha args decoded env ienv pid).printed.countP isTerminalW = 1 := by
  rw [run_worker_eq_go sha args decoded env ienv pid h1 h2]
  obtain ⟨hexit, r, w, v, t, hpl, hprint, hw, hv, hterm⟩ :=
    run_worker_go_shape sha (parse_worker_args args emptyParsedArgs) decoded env ienv pid h2
  have hwz : ∀ m ∈ w, isTerminalW m = false := fun m hm => writeishW_not_terminal (hw m hm)
  have hvz : ∀ m ∈ v, isTerminalW m = false := by
    intro m hm
    rcases hv with rfl | ⟨v2, rfl, hv2⟩
    · exact absurd hm (by simp)
    · rcases List.mem_cons.mp hm with rfl | h3
      · rfl
      · exact verifyishW_not_terminal (hv2 m h3)
  refine ⟨hexit, r, hpl, ?_, ?_, ?_⟩
  · intro herr
    rcases hterm with ⟨-, rfl, -⟩ | ⟨e, he, -⟩
    · rw [hprint, ← List.append_assoc]
      exact List.getLast?_concat _
    · rw [herr] at he
      cases he
  · intro e herr
    rcases hterm with ⟨hnone, -, -⟩ | ⟨e2, he2, rfl⟩
    · rw [herr] at hnone
      cases hnone
    · rw [herr] at he2
      have : e2 = e := (Option.some.inj he2).symm
      subst this
      rw [hprint, ← List.append_assoc]
      exact List.getLast?_concat _
  · rw [hprint]
    rw [List.countP_append, List.countP_append]
    have hcw : w.countP isTerminalW = 0 := by
      rw [List.countP_eq_zero]
      intro m hm
      simp [hwz m hm]
    have hcv : v.countP isTerminalW = 0 := by
      rw [List.countP_eq_zero]
      intro m hm
      simp [hvz m hm]
    have hct : List.countP isTerminalW [t] = 1 := by
      have : isTerminalW t = true := by
        rcases hterm with ⟨-, rfl, -⟩ | ⟨e, -, rfl⟩ <;> rfl
      simp [List.countP_cons, this]
    omega

/-- Witness for `worker_exit_amended` at a run whose transfer succeeds. -/
theorem worker_exit_amended_witness :
    ((parse_worker_args argsC emptyParsedArgs).image_url ≠ "" ∧
     (parse_worker_args argsC emptyParsedArgs).device_path ≠ "") ∧
    ((run_worker idDigest argsC CustomizationOptions.default envOkC installEnvOk 1).exitCode = 0 ∧
     ∃ r, (run_worker idDigest argsC CustomizationOptions.default envOkC installEnvOk 1).pipeline = some r ∧
       (r.err = none →
         (run_worker idDigest argsC CustomizationOptions.default envOkC installEnvOk 1).printed.getLast? =
           some WorkerMessage.Finished) ∧
       (∀ e, r.err = some e →
         (run_worker idDigest argsC CustomizationOptions.default envOkC installEnvOk 1).printed.getLast? =
           some (WorkerMessage.Error e)) ∧
       (run_worker idDigest argsC CustomizationOptions.default envOkC installEnvOk 1).printed.countP isTerminalW = 1) :=
  ⟨⟨by decide, by decide⟩,
   worker_exit_amended idDigest argsC CustomizationOptions.default envOkC installEnvOk 1
     (by decide) (by decide)⟩

/-- Counterexample to C3 as stated: this transfer run fails before
verification, so its complete event sequence (ending in the terminal
`Error`) contains zero `Phase(Verifying)` events, not exactly one. -/
theorem event_order_missing_verify_counterexample :
    (run_worker idDigest argsZip CustomizationOptions.default envZip installEnvOk 1).printed.countP
      (fun m => m == WorkerMessage.Phase "Verifying") = 0 ∧
    (run_worker idDigest argsZip CustomizationOptions.default envZip installEnvOk 1).printed.getLast? =
      some (WorkerMessage.Error (WorkerError.transfer TransferError.zipUnsupported)) := by
  constructor <;> rfl

/-- C3 (amended): every worker event stream is zero or more
`Progress`/`Status`/`Phase(Writing)` events, then — in every successful
run, and at most once in any run — one `Phase(Verifying)`, then zero or
more `VerifyProgress`/`Status` events, then exactly one terminal event
(`Finished` or `Error`) after which nothing is emitted; a failed run may
end in its terminal `Error` before `Phase(Verifying)` ever appears, so
the phase split occurs at most once, and exactly once whenever the
terminal is `Finished`. -/
theorem event_order_amended (sha : List Nat → List Nat) (args : List String)
    (decoded : CustomizationOptions) (env : Env) (ienv : InstallEnv) (pid : Nat)
    (h1 : (parse_worker_args args emptyParsedArgs).image_url ≠ "")
    (h2 : (parse_worker_args args emptyParsedArgs).device_path ≠ "") :
    ∃ w v t,
      (run_worker sha args decoded env ienv pid).printed = w ++ (v ++ [t]) ∧
      (∀ m ∈ w, writeishW m = true) ∧
      (v = [] ∨ ∃ v2, v = WorkerMessage.Phase "Verifying" :: v2 ∧
        ∀ m ∈ v2, verifyishW m = true) ∧
      isTerminalW t = true ∧
      (∀ m ∈ w, isTerminalW m = false) ∧
      (∀ m ∈ v, isTerminalW m = false) ∧
      (t = WorkerMessage.Finished → v ≠ []) := by
  rw [run_worker_eq_go sha args decoded env ienv pid h1 h2]
  obtain ⟨-, r, w, v, t, -, hprint, hw, hv, hterm⟩ :=
    run_worker_go_shape sha (parse_worker_args args emptyParsedArgs) decoded env ienv pid h2
  refine ⟨w, v, t, hprint, hw, hv, ?_, ?_, ?_, ?_⟩
  · rcases hterm with ⟨-, rfl, -⟩ | ⟨e, -, rfl⟩ <;> rfl
  · exact fun m hm => writeishW_not_terminal (hw m hm)
  · intro m hm
    rcases hv with rfl | ⟨v2, rfl, hv2⟩
    · exact absurd hm (by simp)
    · rcases List.mem_cons.mp hm with rfl | h3
      · rfl
      · exact verifyishW_not_terminal (hv2 m h3)
  · intro hfin
    rcases hterm with ⟨-, -, hne⟩ | ⟨e, -, ht⟩
    · exact hne
    · rw [ht] at hfin
      cases hfin

/-- Witness for `event_order_amended` at a run whose transfer succeeds. -/
theorem event_order_amended_witness :
    ((parse_worker_args argsC emptyParsedArgs).image_url ≠ "" ∧
     (parse_worker_args argsC emptyParsedArgs).device_path ≠ "") ∧
    ∃ w v t,
      (run_worker idDigest argsC CustomizationOptions.default envOkC installEnvOk 1).printed =
        w ++ (v ++ [t]) ∧
      (∀ m ∈ w, writeishW m = true) ∧
      (v = [] ∨ ∃ v2, v = WorkerMessage.Phase "Verifying" :: v2 ∧
        ∀ m ∈ v2, verifyishW m = true) ∧
      isTerminalW t = true ∧
      (∀ m ∈ w, isTerminalW m = false) ∧
      (∀ m ∈ v, isTerminalW m = false) ∧
      (t = WorkerMessage.Finished → v ≠ []) :=
  ⟨⟨by decide, by decide⟩,
   event_order_amended idDigest argsC CustomizationOptions.default envOkC installEnvOk 1
     (by decide) (by decide)⟩

/-! ## Engine-level claims -/

/-- The write loop of a run keeps device bytes equal to hashed bytes and
`total_written` equal to their count. -/
lemma writeLoopOf_inv (os : OsListItem) (env : Env) :
    (writeLoopOf os env).device = (writeLoopOf os env).hashed ∧
    (writeLoopOf os env).totalWritten = (writeLoopOf os env).hashed.length :=
  runWriteLoop_inv (os.extract_size.getD 0) env.writeOk env.tick env.reads 0
    ⟨[], [], [], 0, none⟩ rfl rfl

/-- The verification loop of a run keeps the read-back byte count equal
to `total_read`, and a clean finish implies exactly `tw` bytes were read
back. -/
lemma verifyLoopOf_inv (tw : Nat) (os : OsListItem) (env : Env) :
    (verifyLoopOf tw os env).hashed.length = (verifyLoopOf tw os env).totalRead ∧
    ((verifyLoopOf tw os env).err = none → (verifyLoopOf tw os env).totalRead = tw) := by
  have h := runVerifyLoop_inv tw (os.extract_size.getD 0) env.vtick env.vreads 0
    ⟨[], [], 0, none⟩ (Nat.zero_le tw) rfl rfl
  exact ⟨h.1, h.2.2⟩

/-- A failed `write_image` run never contains the `Finished` event. -/
lemma write_image_no_finished_of_err (sha : List Nat → List Nat) (os : OsListItem)
    (drive : Drive) (env : Env)
    (h : (write_image sha os drive env).result ≠ none) :
    AppMessage.WriteFinished ∉ (write_image sha os drive env).events := by
  unfold write_image at h ⊢
  cases hres : (transfer_core sha os drive env).result with
  | none => simp [hres] at h
  | some e =>
    simp only [hres]
    exact transfer_core_no_finished sha os drive env

/-- The integrity check against a supplied expected hash passes exactly
when the lowercased hex digests agree. -/
lemma integrityOk_some (sha : List Nat → List Nat) (hashed : List Nat) (expected : String) :
    integrityOk sha hashed (some expected) = true ↔
      asciiLower (hexEncode (sha hashed)) = asciiLower expected := by
  simp [integrityOk]

/-- The write loop can only fail with a read or a write error. -/
lemma runWriteLoop_err (size : Nat) (wk tk : Nat → Bool) :
    ∀ (reads : List ReadStep) (i : Nat) (acc : WOut), acc.err = none →
      (runWriteLoop size wk tk reads i acc).err = none ∨
      (runWriteLoop size wk tk reads i acc).err = some TransferError.readFailed ∨
      (runWriteLoop size wk tk reads i acc).err = some TransferError.writeFailed := by
  intro reads
  induction reads with
  | nil =>
    intro i acc h
    exact Or.inl (by simpa [runWriteLoop] using h)
  | cons r rest ih =>
    intro i acc h
    cases r with
    | rerr => exact Or.inr (Or.inl (by simp [runWriteLoop]))
    | rok bs =>
      simp only [runWriteLoop]
      by_cases hl : (bs.take bufSize).length = 0
      · rw [if_pos hl]
        exact Or.inl h
      · rw [if_neg hl]
        by_cases hw : wk i
        · rw [if_pos hw]
          exact ih (i + 1) _ rfl
        · rw [if_neg hw]
          exact Or.inr (Or.inr rfl)

/-- The write loop of a run can only fail with a read or a write error. -/
lemma writeLoopOf_err (os : OsListItem) (env : Env) :
    (writeLoopOf os env).err = none ∨
    (writeLoopOf os env).err = some TransferError.readFailed ∨
    (writeLoopOf os env).err = some TransferError.writeFailed :=
  runWriteLoop_err (os.extract_size.getD 0) env.writeOk env.tick env.reads 0
    ⟨[], [], [], 0, none⟩ rfl

/-- The verification loop can only fail with a device-read error or an
unexpected EOF. -/
lemma runVerifyLoop_err (tw size : Nat) (tk : Nat → Bool) :
    ∀ (vreads : List VerifyRead) (i : Nat) (acc : VOut), acc.err = none →
      (runVerifyLoop tw size tk vreads i acc).err = none ∨
      (runVerifyLoop tw size tk vreads i acc).err = some TransferError.verifyReadFailed ∨
      (runVerifyLoop tw size tk vreads i acc).err = some TransferError.unexpectedEof := by
  intro vreads
  induction vreads with
  | nil =>
    intro i acc h
    by_cases h0 : tw - acc.totalRead = 0
    · exact Or.inl (by simpa [runVerifyLoop, h0] using h)
    · exact Or.inr (Or.inr (by simp [runVerifyLoop, h0]))
  | cons r rest ih =>
    intro i acc h
    cases r with
    | verr =>
      by_cases h0 : tw - acc.totalRead = 0
      · exact Or.inl (by simpa [runVerifyLoop, h0] using h)
      · exact Or.inr (Or.inl (by simp [runVerifyLoop, h0]))
    | vok bs =>
      by_cases h0 : tw - acc.totalRead = 0
      · exact Or.inl (by simpa [runVerifyLoop, h0] using h)
      · simp only [runVerifyLoop, if_neg h0]
        by_cases hl : (bs.take (min bufSize (tw - acc.totalRead))).length = 0
        · rw [if_pos hl]
          exact Or.inr (Or.inr rfl)
        · rw [if_neg hl]
          exact ih (i + 1) _ rfl

/-- The verification loop of a run can only fail with a device-read error
or an unexpected EOF. -/
lemma verifyLoopOf_err (tw : Nat) (os : OsListItem) (env : Env) :
    (verifyLoopOf tw os env).err = none ∨
    (verifyLoopOf tw os env).err = some TransferError.verifyReadFailed ∨
    (verifyLoopOf tw os env).err = some TransferError.unexpectedEof :=
  runVerifyLoop_err tw (os.extract_size.getD 0) env.vtick env.vreads 0
    ⟨[], [], 0, none⟩ rfl

/-- Core form of the integrity-check claim: once the run is synced, a
case-insensitive mismatch between the supplied expected hash and the
source hash yields exactly the `IntegrityError` (with the full write
already on the device), and agreement rules an `IntegrityError` out. -/
lemma transfer_core_integrity (sha : List Nat → List Nat) (os : OsListItem)
    (drive : Drive) (env : Env) (expected : String)
    (hexp : os.extract_sha256 = some expected) :
    ((transfer_core sha os drive env).synced = true →
      asciiLower (hexEncode (sha (transfer_core sha os drive env).sourceBytes)) ≠
        asciiLower expected →
      (transfer_core sha os drive env).result =
        some (TransferError.integrity expected
          (hexEncode (sha (transfer_core sha os drive env).sourceBytes))) ∧
      (transfer_core sha os drive env).deviceBytes =
        (transfer_core sha os drive env).sourceBytes) ∧
    (asciiLower (hexEncode (sha (transfer_core sha os drive env).sourceBytes)) =
        asciiLower expected →
      ∀ a b, (transfer_core sha os drive env).result ≠
        some (TransferError.integrity a b)) := by
  cases hurl : os.url with
  | none =>
    constructor
    · intro hsync
      simp [transfer_core, hurl] at hsync
    · intro _ a b
      simp [transfer_core, hurl]
  | some url =>
    by_cases hc : env.httpConnects
    case neg =>
      constructor
      · intro hsync
        simp [transfer_core, hurl, hc] at hsync
      · intro _ a b
        simp [transfer_core, hurl, hc]
    case pos =>
    by_cases hs : env.httpStatusOk
    case neg =>
      constructor
      · intro hsync
        simp [transfer_core, hurl, hc, hs] at hsync
      · intro _ a b
        simp [transfer_core, hurl, hc, hs]
    case pos =>
    cases hsel : selectDecoder env.parsedPath with
    | error e =>
      have he : e = TransferError.zipUnsupported := by
        unfold selectDecoder at hsel
        split at hsel
        · cases hsel
        · split at hsel
          · cases hsel
          · split at hsel
            · cases hsel
            · split at hsel
              · exact (Except.error.inj hsel).symm
              · cases hsel
      subst he
      constructor
      · intro hsync
        simp [transfer_core, hurl, hc, hs, hsel] at hsync
      · intro _ a b
        simp [transfer_core, hurl, hc, hs, hsel]
    | ok comp =>
      by_cases hd : env.deviceOpenOk
      case neg =>
        constructor
        · intro hsync
          simp [transfer_core, hurl, hc, hs, hsel, hd] at hsync
        · intro _ a b
          simp [transfer_core, hurl, hc, hs, hsel, hd]
      case pos =>
      cases hwerr : (writeLoopOf os env).err with
      | some e =>
        constructor
        · intro hsync
          simp [transfer_core, hurl, hc, hs, hsel, hd, hwerr] at hsync
        · intro _ a b
          rcases writeLoopOf_err os env with h | h | h
          · rw [hwerr] at h
            cases h
          · rw [hwerr] at h
            have he := Option.some.inj h
            subst he
            simp [transfer_core, hurl, hc, hs, hsel, hd, hwerr]
          · rw [hwerr] at h
            have he := Option.some.inj h
            subst he
            simp [transfer_core, hurl, hc, hs, hsel, hd, hwerr]
      | none =>
        by_cases hf : env.flushOk
        case neg =>
          constructor
          · intro hsync
            simp [transfer_core, hurl, hc, hs, hsel, hd, hwerr, hf] at hsync
          · intro _ a b
            simp [transfer_core, hurl, hc, hs, hsel, hd, hwerr, hf]
        case pos =>
        by_cases hsy : env.syncOk
        case neg =>
          constructor
          · intro hsync
            simp [transfer_core, hurl, hc, hs, hsel, hd, hwerr, hf, hsy] at hsync
          · intro _ a b
            simp [transfer_core, hurl, hc, hs, hsel, hd, hwerr, hf, hsy]
        case pos =>
        by_cases hI : integrityOk sha (writeLoopOf os env).hashed os.extract_sha256
        case neg =>
          rw [hexp] at hI
          have hI2 : integrityOk sha (writeLoopOf os env).hashed (some expected) = false := by
            revert hI
            cases integrityOk sha (writeLoopOf os env).hashed (some expected) <;> simp
          constructor
          · intro _ _
            constructor
            · simp [transfer_core, hurl, hc, hs, hsel, hd, hwerr, hf, hsy, hexp, hI2]
            · have hdev := (writeLoopOf_inv os env).1
              simp [transfer_core, hurl, hc, hs, hsel, hd, hwerr, hf, hsy, hexp, hI2, hdev]
          · intro heq a b
            simp only [transfer_core, hurl, hc, hs, hsel, hd, hwerr, hf, hsy, hexp, hI2] at heq
            have : integrityOk sha (writeLoopOf os env).hashed (some expected) = true := by
              rw [integrityOk_some]
              simpa using heq
            rw [this] at hI2
            cases hI2
        case pos =>
        have hIeq : asciiLower (hexEncode (sha (writeLoopOf os env).hashed)) =
            asciiLower expected := by
          rw [hexp] at hI
          exact (integrityOk_some sha (writeLoopOf os env).hashed expected).mp hI
        by_cases hsk : env.seekOk
        case neg =>
          constructor
          · intro _ hmis
            exfalso
            apply hmis
            simp only [transfer_core, hurl, hc, hs, hsel, hd, hwerr, hf, hsy, hI, hsk]
            simpa using hIeq
          · intro _ a b
            simp [transfer_core, hurl, hc, hs, hsel, hd, hwerr, hf, hsy, hI, hsk]
        case pos =>
        cases hverr : (verifyLoopOf (writeLoopOf os env).totalWritten os env).err with
        | some e =>
          constructor
          · intro _ hmis
            exfalso
            apply hmis
            simp only [transfer_core, hurl, hc, hs, hsel, hd, hwerr, hf, hsy, hI, hsk, hverr]
            simpa using hIeq
          · intro _ a b
            rcases verifyLoopOf_err (writeLoopOf os env).totalWritten os env with h | h | h
            · rw [hverr] at h
              cases h
            · rw [hverr] at h
              have he := Option.some.inj h
              subst he
              simp [transfer_core, hurl, hc, hs, hsel, hd, hwerr, hf, hsy, hI, hsk, hverr]
            · rw [hverr] at h
              have he := Option.some.inj h
              subst he
              simp [transfer_core, hurl, hc, hs, hsel, hd, hwerr, hf, hsy, hI, hsk, hverr]
        | none =>
          by_cases hdh : hexEncode (sha (verifyLoopOf (writeLoopOf os env).totalWritten os env).hashed) =
              hexEncode (sha (writeLoopOf os env).hashed)
          case pos =>
            constructor
            · intro _ hmis
              exfalso
              apply hmis
              simp only [transfer_core, hurl, hc, hs, hsel, hd, hwerr, hf, hsy, hI, hsk, hverr, hdh]
              simpa using hIeq
            · intro _ a b
              simp [transfer_core, hurl, hc, hs, hsel, hd, hwerr, hf, hsy, hI, hsk, hverr, hdh]
          case neg =>
            constructor
            · intro _ hmis
              exfalso
              apply hmis
              simp only [transfer_core, hurl, hc, hs, hsel, hd, hwerr, hf, hsy, hI, hsk, hverr, hdh]
              simpa using hIeq
            · intro _ a b
              simp [transfer_core, hurl, hc, hs, hsel, hd, hwerr, hf, hsy, hI, hsk, hverr, hdh]

/-- Appending the terminal `Finished` event changes no field of the run
result except the events. -/
lemma write_image_fields (sha : List Nat → List Nat) (os : OsListItem)
    (drive : Drive) (env : Env) :
    (write_image sha os drive env).result = (transfer_core sha os drive env).result ∧
    (write_image sha os drive env).synced = (transfer_core sha os drive env).synced ∧
    (write_image sha os drive env).sourceBytes = (transfer_core sha os drive env).sourceBytes ∧
    (write_image sha os drive env).readBackBytes = (transfer_core sha os drive env).readBackBytes ∧
    (write_image sha os drive env).totalRead = (transfer_core sha os drive env).totalRead ∧
    (write_image sha os drive env).totalWritten = (transfer_core sha os drive env).totalWritten ∧
    (write_image sha os drive env).deviceBytes = (transfer_core sha os drive env).deviceBytes ∧
    (write_image sha os drive env).deviceOpenAttempted = (transfer_core sha os drive env).deviceOpenAttempted ∧
    (write_image sha os drive env).decoder = (transfer_core sha os drive env).decoder := by
  unfold write_image
  cases hres : (transfer_core sha os drive env).result <;> simp [hres]

/-- C4: with a supplied expected SHA-256, a case-insensitive mismatch
against the hash accumulated over the decompressed source bytes is
reported as the fatal `IntegrityError` after the device write and sync
completed (the device holds exactly the hashed bytes); no `Finished`
event is ever emitted, the single-pass engine does not retry, and
when the two hashes agree case-insensitively no `IntegrityError` is
raised. -/
theorem integrity_error_on_hash_mismatch (sha : List Nat → List Nat) (os : OsListItem)
    (drive : Drive) (env : Env) (expected : String)
    (hexp : os.extract_sha256 = some expected) :
    ((write_image sha os drive env).synced = true →
      asciiLower (hexEncode (sha (write_image sha os drive env).sourceBytes)) ≠
        asciiLower expected →
      (write_image sha os drive env).result =
        some (TransferError.integrity expected
          (hexEncode (sha (write_image sha os drive env).sourceBytes))) ∧
      AppMessage.WriteFinished ∉ (write_image sha os drive env).events ∧
      (write_image sha os drive env).deviceBytes = (write_image sha os drive env).sourceBytes) ∧
    (asciiLower (hexEncode (sha (write_image sha os drive env).sourceBytes)) =
        asciiLower expected →
      ∀ a b, (write_image sha os drive env).result ≠
        some (TransferError.integrity a b)) := by
  obtain ⟨hres, hsync, hsrc, hread, htr, htw, hdev, hopen, hdec⟩ :=
    write_image_fields sha os drive env
  obtain ⟨hcore1, hcore2⟩ := transfer_core_integrity sha os drive env expected hexp
  constructor
  · intro h1 h2
    rw [hsync] at h1
    rw [hsrc] at h2
    obtain ⟨hr, hd⟩ := hcore1 h1 h2
    refine ⟨by rw [hres, hsrc]; exact hr, ?_, by rw [hdev, hsrc]; exact hd⟩
    apply write_image_no_finished_of_err
    rw [hres, hr]
    simp
  · intro h1 a b
    rw [hsrc] at h1
    rw [hres]
    exact hcore2 h1 a b

/-- driveC is a generic target drive for witnesses. -/
def driveC : Drive where
  name := "/dev/sdx"
  description := "d"
  size := 0
  removable := true
  readonly := false
  mountpoints := []

/-- osBad carries an expected hash that cannot match the single source
byte written by `envOkC`. -/
def osBad : OsListItem where
  name := "t"
  url := some "http://h/img"
  extract_size := none
  extract_sha256 := some "ff"

/-- Witness for `integrity_error_on_hash_mismatch`: the one-byte source
hashes (under the identity digest) to hex "01", which mismatches the
expected "ff" after a fully synced write. -/
theorem integrity_error_witness :
    osBad.extract_sha256 = some "ff" ∧
    (write_image idDigest osBad driveC envOkC).synced = true ∧
    asciiLower (hexEncode (idDigest (write_image idDigest osBad driveC envOkC).sourceBytes)) ≠
      asciiLower "ff" ∧
    ((write_image idDigest osBad driveC envOkC).result =
        some (TransferError.integrity "ff"
          (hexEncode (idDigest (write_image idDigest osBad driveC envOkC).sourceBytes))) ∧
      AppMessage.WriteFinished ∉ (write_image idDigest osBad driveC envOkC).events ∧
      (write_image idDigest osBad driveC envOkC).deviceBytes =
        (write_image idDigest osBad driveC envOkC).sourceBytes) :=
  ⟨rfl, by decide, by decide,
   (integrity_error_on_hash_mismatch idDigest osBad driveC envOkC "ff" rfl).1
     (by decide) (by decide)⟩

/-- Core form of the verification claim: a clean run reads back exactly
`total_written` bytes and requires the read-back hash to equal the
source hash; a `WriteVerificationError` carries exactly those two
(unequal) hashes, also after a complete read-back. -/
lemma transfer_core_verification (sha : List Nat → List Nat) (os : OsListItem)
    (drive : Drive) (env : Env) :
    ((transfer_core sha os drive env).result = none →
      (transfer_core sha os drive env).totalRead = (transfer_core sha os drive env).totalWritten ∧
      (transfer_core sha os drive env).readBackBytes.length =
        (transfer_core sha os drive env).totalWritten ∧
      hexEncode (sha (transfer_core sha os drive env).readBackBytes) =
        hexEncode (sha (transfer_core sha os drive env).sourceBytes)) ∧
    (∀ a b, (transfer_core sha os drive env).result =
        some (TransferError.writeVerification a b) →
      a = hexEncode (sha (transfer_core sha os drive env).sourceBytes) ∧
      b = hexEncode (sha (transfer_core sha os drive env).readBackBytes) ∧
      a ≠ b ∧
      (transfer_core sha os drive env).totalRead =
        (transfer_core sha os drive env).totalWritten) := by
  cases hurl : os.url with
  | none =>
    constructor
    · intro h
      simp [transfer_core, hurl] at h
    · intro a b h
      simp [transfer_core, hurl] at h
  | some url =>
    by_cases hc : env.httpConnects
    case neg =>
      constructor
      · intro h
        simp [transfer_core, hurl, hc] at h
      · intro a b h
        simp [transfer_core, hurl, hc] at h
    case pos =>
    by_cases hs : env.httpStatusOk
    case neg =>
      constructor
      · intro h
        simp [transfer_core, hurl, hc, hs] at h
      · intro a b h
        simp [transfer_core, hurl, hc, hs] at h
    case pos =>
    cases hsel : selectDecoder env.parsedPath with
    | error e =>
      have he : e = TransferError.zipUnsupported := by
        unfold selectDecoder at hsel
        split at hsel
        · cases hsel
        · split at hsel
          · cases hsel
          · split at hsel
            · cases hsel
            · split at hsel
              · exact (Except.error.inj hsel).symm
              · cases hsel
      subst he
      constructor
      · intro h
        simp [transfer_core, hurl, hc, hs, hsel] at h
      · intro a b h
        simp [transfer_core, hurl, hc, hs, hsel] at h
    | ok comp =>
      by_cases hd : env.deviceOpenOk
      case neg =>
        constructor
        · intro h
          simp [transfer_core, hurl, hc, hs, hsel, hd] at h
        · intro a b h
          simp [transfer_core, hurl, hc, hs, hsel, hd] at h
      case pos =>
      cases hwerr : (writeLoopOf os env).err with
      | some e =>
        have hchar := writeLoopOf_err os env
        constructor
        · intro h
          simp [transfer_core, hurl, hc, hs, hsel, hd, hwerr] at h
        · intro a b h
          rcases hchar with h2 | h2 | h2
          · rw [hwerr] at h2
            cases h2
          · rw [hwerr] at h2
            have he := Option.some.inj h2
            subst he
            simp [transfer_core, hurl, hc, hs, hsel, hd, hwerr] at h
          · rw [hwerr] at h2
            have he := Option.some.inj h2
            subst he
            simp [transfer_core, hurl, hc, hs, hsel, hd, hwerr] at h
      | none =>
        by_cases hf : env.flushOk
        case neg =>
          constructor
          · intro h
            simp [transfer_core, hurl, hc, hs, hsel, hd, hwerr, hf] at h
          · intro a b h
            simp [transfer_core, hurl, hc, hs, hsel, hd, hwerr, hf] at h
        case pos =>
        by_cases hsy : env.syncOk
        case neg =>
          constructor
          · intro h
            simp [transfer_core, hurl, hc, hs, hsel, hd, hwerr, hf, hsy] at h
          · intro a b h
            simp [transfer_core, hurl, hc, hs, hsel, hd, hwerr, hf, hsy] at h
        case pos =>
        by_cases hI : integrityOk sha (writeLoopOf os env).hashed os.extract_sha256
        case neg =>
          have hI2 : integrityOk sha (writeLoopOf os env).hashed os.extract_sha256 = false := by
            revert hI
            cases integrityOk sha (writeLoopOf os env).hashed os.extract_sha256 <;> simp
          constructor
          · intro h
            simp [transfer_core, hurl, hc, hs, hsel, hd, hwerr, hf, hsy, hI2] at h
          · intro a b h
            simp [transfer_core, hurl, hc, hs, hsel, hd, hwerr, hf, hsy, hI2] at h
        case pos =>
        by_cases hsk : env.seekOk
        case neg =>
          constructor
          · intro h
            simp [transfer_core, hurl, hc, hs, hsel, hd, hwerr, hf, hsy, hI, hsk] at h
          · intro a b h
            simp [transfer_core, hurl, hc, hs, hsel, hd, hwerr, hf, hsy, hI, hsk] at h
        case pos =>
        have hinv := verifyLoopOf_inv (writeLoopOf os env).totalWritten os env
        cases hverr : (verifyLoopOf (writeLoopOf os env).totalWritten os env).err with
        | some e =>
          have hchar := verifyLoopOf_err (writeLoopOf os env).totalWritten os env
          constructor
          · intro h
            simp [transfer_core, hurl, hc, hs, hsel, hd, hwerr, hf, hsy, hI, hsk, hverr] at h
          · intro a b h
            rcases hchar with h2 | h2 | h2
            · rw [hverr] at h2
              cases h2
            · rw [hverr] at h2
              have he := Option.some.inj h2
              subst he
              simp [transfer_core, hurl, hc, hs, hsel, hd, hwerr, hf, hsy, hI, hsk, hverr] at h
            · rw [hverr] at h2
              have he := Option.some.inj h2
              subst he
              simp [transfer_core, hurl, hc, hs, hsel, hd, hwerr, hf, hsy, hI, hsk, hverr] at h
        | none =>
          have htr := hinv.2 hverr
          by_cases hdh : hexEncode (sha (verifyLoopOf (writeLoopOf os env).totalWritten os env).hashed) =
              hexEncode (sha (writeLoopOf os env).hashed)
          case pos =>
            constructor
            · intro _
              refine ⟨?_, ?_, ?_⟩
              · simp [transfer_core, hurl, hc, hs, hsel, hd, hwerr, hf, hsy, hI, hsk, hverr, hdh, htr]
              · simp [transfer_core, hurl, hc, hs, hsel, hd, hwerr, hf, hsy, hI, hsk, hverr, hdh,
                  hinv.1, htr]
              · simp [transfer_core, hurl, hc, hs, hsel, hd, hwerr, hf, hsy, hI, hsk, hverr, hdh]
            · intro a b h
              simp [transfer_core, hurl, hc, hs, hsel, hd, hwerr, hf, hsy, hI, hsk, hverr, hdh] at h
          case neg =>
            constructor
            · intro h
              simp [transfer_core, hurl, hc, hs, hsel, hd, hwerr, hf, hsy, hI, hsk, hverr, hdh] at h
            · intro a b h
              simp only [transfer_core, hurl, hc, hs, hsel, hd, hwerr, hf, hsy, hI, hsk, hverr] at h
              rw [if_neg hdh] at h
              simp at h
              obtain ⟨ha, hb⟩ := h
              subst ha
              subst hb
              refine ⟨?_, ?_, ?_, ?_⟩
              · simp [transfer_core, hurl, hc, hs, hsel, hd, hwerr, hf, hsy, hI, hsk, hverr, hdh]
              · simp [transfer_core, hurl, hc, hs, hsel, hd, hwerr, hf, hsy, hI, hsk, hverr, hdh]
              · exact fun hcontra => hdh hcontra.symm
              · simp [transfer_core, hurl, hc, hs, hsel, hd, hwerr, hf, hsy, hI, hsk, hverr, hdh, htr]

/-- A successful `write_image` run ends with the `Finished` event. -/
lemma write_image_finished_last (sha : List Nat → List Nat) (os : OsListItem)
    (drive : Drive) (env : Env)
    (h : (write_image sha os drive env).result = none) :
    (write_image sha os drive env).events.getLast? = some AppMessage.WriteFinished := by
  unfold write_image at h ⊢
  cases hres : (transfer_core sha os drive env).result with
  | none => simp [hres]
  | some e => simp [hres] at h

/-- C5: the engine re-reads exactly `total_written` bytes from the device
start and compares the hash of the re-read bytes against the source hash
computed during writing (not against the externally supplied expected
SHA-256): a mismatch is the fatal, unretried `WriteVerificationError`
carrying exactly those two hashes, and their equality is required for
`Finished` to be emitted. -/
theorem verification_reads_back_and_compares_source_hash (sha : List Nat → List Nat)
    (os : OsListItem) (drive : Drive) (env : Env) :
    ((write_image sha os drive env).result = none →
      (write_image sha os drive env).totalRead = (write_image sha os drive env).totalWritten ∧
      (write_image sha os drive env).readBackBytes.length =
        (write_image sha os drive env).totalWritten ∧
      hexEncode (sha (write_image sha os drive env).readBackBytes) =
        hexEncode (sha (write_image sha os drive env).sourceBytes) ∧
      (write_image sha os drive env).events.getLast? = some AppMessage.WriteFinished) ∧
    (∀ a b, (write_image sha os drive env).result =
        some (TransferError.writeVerification a b) →
      a = hexEncode (sha (write_image sha os drive env).sourceBytes) ∧
      b = hexEncode (sha (write_image sha os drive env).readBackBytes) ∧
      a ≠ b ∧
      (write_image sha os drive env).totalRead = (write_image sha os drive env).totalWritten ∧
      AppMessage.WriteFinished ∉ (write_image sha os drive env).events) := by
  obtain ⟨hres, hsync, hsrc, hread, htr, htw, hdev, hopen, hdec⟩ :=
    write_image_fields sha os drive env
  obtain ⟨hcore1, hcore2⟩ := transfer_core_verification sha os drive env
  constructor
  · intro h
    have hlast := write_image_finished_last sha os drive env h
    rw [hres] at h
    obtain ⟨h1, h2, h3⟩ := hcore1 h
    exact ⟨by rw [htr, htw]; exact h1, by rw [hread, htw]; exact h2,
      by rw [hread, hsrc]; exact h3, hlast⟩
  · intro a b h
    have hnf : AppMessage.WriteFinished ∉ (write_image sha os drive env).events := by
      apply write_image_no_finished_of_err
      rw [h]
      simp
    rw [hres] at h
    obtain ⟨h1, h2, h3, h4⟩ := hcore2 a b h
    exact ⟨by rw [hsrc]; exact h1, by rw [hread]; exact h2, h3,
      by rw [htr, htw]; exact h4, hnf⟩

/-- osC is a plain image descriptor without expected size or hash. -/
def osC : OsListItem where
  name := "t"
  url := some "http://h/img"
  extract_size := none
  extract_sha256 := none

/-- Witness for `verification_reads_back_and_compares_source_hash` at a
fully successful run. -/
theorem verification_witness :
    (write_image idDigest osC driveC envOkC).result = none ∧
    ((write_image idDigest osC driveC envOkC).totalRead =
        (write_image idDigest osC driveC envOkC).totalWritten ∧
      (write_image idDigest osC driveC envOkC).readBackBytes.length =
        (write_image idDigest osC driveC envOkC).totalWritten ∧
      hexEncode (idDigest (write_image idDigest osC driveC envOkC).readBackBytes) =
        hexEncode (idDigest (write_image idDigest osC driveC envOkC).sourceBytes) ∧
      (write_image idDigest osC driveC envOkC).events.getLast? =
        some AppMessage.WriteFinished) :=
  ⟨by decide,
   (verification_reads_back_and_compares_source_hash idDigest osC driveC envOkC).1 (by decide)⟩

/-- ends_with decides the character-list suffix relation. -/
lemma ends_with_iff (s suffix : String) :
    ends_with s suffix = true ↔ suffix.data <:+ s.data := by
  simp [ends_with]

/-- Two incomparable suffixes cannot both terminate the same string. -/
lemma ends_with_false_of_ends_with (b : String) {s a : String}
    (ha : ends_with s a = true)
    (h1 : ¬ a.data <:+ b.data) (h2 : ¬ b.data <:+ a.data) :
    ends_with s b = false := by
  cases hb : ends_with s b with
  | false => rfl
  | true =>
    exfalso
    rcases List.suffix_or_suffix_of_suffix ((ends_with_iff s a).mp ha)
        ((ends_with_iff s b).mp hb) with h | h
    · exact h1 h
    · exact h2 h

/-- An `.xz` path selects the xz decoder. -/
lemma selectDecoder_xz {path : String} (h : ends_with path (".xz") = true) :
    selectDecoder path = Except.ok Compression.xz := by
  simp [selectDecoder, h]

/-- A `.gz` path selects the gzip decoder. -/
lemma selectDecoder_gz {path : String} (h : ends_with path (".gz") = true) :
    selectDecoder path = Except.ok Compression.gz := by
  have hxz := ends_with_false_of_ends_with (".xz") h (by decide) (by decide)
  simp [selectDecoder, h, hxz]

/-- A `.zst` path selects the zstd decoder. -/
lemma selectDecoder_zst {path : String} (h : ends_with path (".zst") = true) :
    selectDecoder path = Except.ok Compression.zst := by
  have hxz := ends_with_false_of_ends_with (".xz") h (by decide) (by decide)
  have hgz := ends_with_false_of_ends_with (".gz") h (by decide) (by decide)
  simp [selectDecoder, h, hxz, hgz]

/-- A `.zip` path is rejected as unsupported. -/
lemma selectDecoder_zip {path : String} (h : ends_with path (".zip") = true) :
    selectDecoder path = Except.error TransferError.zipUnsupported := by
  have hxz := ends_with_false_of_ends_with (".xz") h (by decide) (by decide)
  have hgz := ends_with_false_of_ends_with (".gz") h (by decide) (by decide)
  have hzst := ends_with_false_of_ends_with (".zst") h (by decide) (by decide)
  simp [selectDecoder, h, hxz, hgz, hzst]

/-- Any other path is passed through undecompressed. -/
lemma selectDecoder_plain {path : String}
    (h1 : ends_with path (".xz") = false) (h2 : ends_with path (".gz") = false)
    (h3 : ends_with path (".zst") = false) (h4 : ends_with path (".zip") = false) :
    selectDecoder path = Except.ok Compression.plain := by
  simp [selectDecoder, h1, h2, h3, h4]

/-- Once the three download steps succeed and the extension dispatch
picks a decoder, the run records exactly that decoder, whatever happens
later. -/
lemma write_image_decoder_of_select (sha : List Nat → List Nat) (os : OsListItem)
    (drive : Drive) (env : Env) (url : String) (comp : Compression)
    (hurl : os.url = some url) (hc : env.httpConnects = true)
    (hs : env.httpStatusOk = true)
    (hsel : selectDecoder env.parsedPath = Except.ok comp) :
    (write_image sha os drive env).decoder = some comp := by
  rw [(write_image_fields sha os drive env).2.2.2.2.2.2.2.2]
  by_cases hd : env.deviceOpenOk
  case neg =>
    simp [transfer_core, hurl, hc, hs, hsel, hd]
  case pos =>
  cases hwerr : (writeLoopOf os env).err with
  | some e =>
    simp [transfer_core, hurl, hc, hs, hsel, hd, hwerr]
  | none =>
    by_cases hf : env.flushOk
    case neg =>
      simp [transfer_core, hurl, hc, hs, hsel, hd, hwerr, hf]
    case pos =>
    by_cases hsy : env.syncOk
    case neg =>
      simp [transfer_core, hurl, hc, hs, hsel, hd, hwerr, hf, hsy]
    case pos =>
    by_cases hI : integrityOk sha (writeLoopOf os env).hashed os.extract_sha256
    case neg =>
      have hI2 : integrityOk sha (writeLoopOf os env).hashed os.extract_sha256 = false := by
        revert hI
        cases integrityOk sha (writeLoopOf os env).hashed os.extract_sha256 <;> simp
      simp [transfer_core, hurl, hc, hs, hsel, hd, hwerr, hf, hsy, hI2]
    case pos =>
    by_cases hsk : env.seekOk
    case neg =>
      simp [transfer_core, hurl, hc, hs, hsel, hd, hwerr, hf, hsy, hI, hsk]
    case pos =>
    cases hverr : (verifyLoopOf (writeLoopOf os env).totalWritten os env).err with
    | some e =>
      simp [transfer_core, hurl, hc, hs, hsel, hd, hwerr, hf, hsy, hI, hsk, hverr]
    | none =>
      by_cases hdh : hexEncode (sha (verifyLoopOf (writeLoopOf os env).totalWritten os env).hashed) =
          hexEncode (sha (writeLoopOf os env).hashed)
      · simp [transfer_core, hurl, hc, hs, hsel, hd, hwerr, hf, hsy, hI, hsk, hverr, hdh]
      · simp [transfer_core, hurl, hc, hs, hsel, hd, hwerr, hf, hsy, hI, hsk, hverr, hdh]

/-- When the extension dispatch rejects the source, the run fails with
that error without ever attempting to open the device. -/
lemma write_image_select_error (sha : List Nat → List Nat) (os : OsListItem)
    (drive : Drive) (env : Env) (url : String) (e : TransferError)
    (hurl : os.url = some url) (hc : env.httpConnects = true)
    (hs : env.httpStatusOk = true)
    (hsel : selectDecoder env.parsedPath = Except.error e) :
    (write_image sha os drive env).result = some e ∧
    (write_image sha os drive env).deviceOpenAttempted = false := by
  obtain ⟨hres, -, -, -, -, -, -, hopen, -⟩ := write_image_fields sha os drive env
  rw [hres, hopen]
  constructor <;> simp [transfer_core, hurl, hc, hs, hsel]

/-- C8: the decompression filter is selected purely from the source
path's extension — `.xz`, `.gz`, `.zst` map to the corresponding
streaming decoder, any other extension is passed through as already
decompressed — and a `.zip`-suffixed source is rejected with the
unsupported-format error before the target device is opened, whatever
the device. -/
theorem decoder_selection_and_zip_rejected (sha : List Nat → List Nat)
    (os : OsListItem) (drive : Drive) (env : Env) (url : String)
    (hurl : os.url = some url) (hc : env.httpConnects = true)
    (hs : env.httpStatusOk = true) :
    (ends_with env.parsedPath (".zip") = true →
      (write_image sha os drive env).result = some TransferError.zipUnsupported ∧
      (write_image sha os drive env).deviceOpenAttempted = false) ∧
    (ends_with env.parsedPath (".xz") = true →
      (write_image sha os drive env).decoder = some Compression.xz) ∧
    (ends_with env.parsedPath (".gz") = true →
      (write_image sha os drive env).decoder = some Compression.gz) ∧
    (ends_with env.parsedPath (".zst") = true →
      (write_image sha os drive env).decoder = some Compression.zst) ∧
    (ends_with env.parsedPath (".xz") = false →
      ends_with env.parsedPath (".gz") = false →
      ends_with env.parsedPath (".zst") = false →
      ends_with env.parsedPath (".zip") = false →
      (write_image sha os drive env).decoder = some Compression.plain) := by
  refine ⟨?_, ?_, ?_, ?_, ?_⟩
  · intro h
    exact write_image_select_error sha os drive env url TransferError.zipUnsupported
      hurl hc hs (selectDecoder_zip h)
  · intro h
    exact write_image_decoder_of_select sha os drive env url Compression.xz
      hurl hc hs (selectDecoder_xz h)
  · intro h
    exact write_image_decoder_of_select sha os drive env url Compression.gz
      hurl hc hs (selectDecoder_gz h)
  · intro h
    exact write_image_decoder_of_select sha os drive env url Compression.zst
      hurl hc hs (selectDecoder_zst h)
  · intro h1 h2 h3 h4
    exact write_image_decoder_of_select sha os drive env url Compression.plain
      hurl hc hs (selectDecoder_plain h1 h2 h3 h4)

/-- Witness for `decoder_selection_and_zip_rejected`: a `.zip` source is
rejected before the device open is attempted. -/
theorem decoder_selection_witness :
    osC.url = some "http://h/img" ∧
    ends_with envZip.parsedPath (".zip") = true ∧
    ((write_image idDigest osC driveC envZip).result = some TransferError.zipUnsupported ∧
      (write_image idDigest osC driveC envZip).deviceOpenAttempted = false) :=
  ⟨rfl, by decide,
   (decoder_selection_and_zip_rejected idDigest osC driveC envZip "http://h/img"
     rfl rfl rfl).1 (by decide)⟩
